import Mathlib

/-!
# Verification of the feed-normalization engine (ericpp/feedparser)

A shallow embedding, in Lean 4, of the streaming podcast-feed normalization
engine found under `src/` of the repository: the parser state, the per-tag
handlers (`src/tags/*.rs`), the pure helpers (`src/utils.rs`) and the record
builders (`src/outputs.rs`).  Pure Rust functions become Lean functions;
the stateful handlers become explicit state-passing functions
`ParserState → ParserState × List Rec` where `Rec` models one emitted
record (the Rust code writes each record to a JSON file; we collect them in
a list instead).  Rust `i32`/`i64` string parsing is modelled with explicit
range checks; Rust `String` values are Lean `String`s (the feeds handled by
the engine are UTF-8, and Rust string concatenation corresponds to Lean
string concatenation byte for byte).

The MD5 digests (`md5::Context`) are modelled by the exact byte stream
consumed into the context: `consume` is string concatenation and the final
digest is identified with the consumed stream.  MD5 itself is a fixed
function of the consumed bytes, so two digests are equal whenever the
consumed streams are equal, and "bytes X are (not) folded into the digest"
is faithfully a statement about the consumed stream.
-/

set_option maxRecDepth 4000

namespace FeedParser

/-! ## Rust string/integer primitives -/

/-- Rust `char::is_whitespace`, restricted to the ASCII whitespace code
points that occur in feed text (the non-ASCII Unicode `White_Space` code
points are not modelled). -/
def isRustWhitespace (c : Char) : Bool :=
  c = ' ' || c = '\t' || c = '\n' || c = '\r' || c = '\x0b' || c = '\x0c'

/-- Rust `str::trim`: drop whitespace from both ends.  (Implemented over
the character list so that it evaluates by kernel reduction; Lean's own
`(trimS String)` is definitionally opaque.) -/
def trimS (s : String) : String :=
  String.mk
    (((s.toList.dropWhile isRustWhitespace).reverse.dropWhile isRustWhitespace).reverse)

/-- Rust `str::is_empty` on `String` fields. -/
def isEmptyS (s : String) : Bool := s == ""

/-- Rust `str::starts_with(pat)`. -/
def startsWithS (s pat : String) : Bool := pat.toList.isPrefixOf s.toList

/-- `str::split(sep)` over the character list: splitting `""` yields
`[""]`, and a trailing separator yields a trailing `""`, as in Rust. -/
def splitOnCharList (sep : Char) : List Char → List (List Char)
  | [] => [[]]
  | c :: cs =>
    match splitOnCharList sep cs with
    | [] => [[]]
    | cur :: rest => if c = sep then [] :: cur :: rest else (c :: cur) :: rest

/-- Rust `str::split(sep)` collected into a `Vec<&str>`. -/
def splitOnCharS (s : String) (sep : Char) : List String :=
  (splitOnCharList sep s.toList).map String.mk

/-- ASCII decimal digit test, as used by Rust's integer `FromStr`. -/
def isAsciiDigit (c : Char) : Bool := 48 ≤ c.toNat && c.toNat ≤ 57

/-- Value of a non-empty ASCII digit string. -/
def digitsToNat (cs : List Char) : Nat :=
  cs.foldl (fun n c => n * 10 + (c.toNat - 48)) 0

/-- Model of Rust `str::parse::<iN>()` for a signed integer type with range
`[lo, hi]`: an optional sign followed by one or more ASCII digits, rejected
when the value falls outside the range. -/
def parseIntRange (lo hi : Int) (s : String) : Option Int :=
  let digits : List Char → Option Int := fun cs =>
    if cs.isEmpty then none
    else if cs.all isAsciiDigit then some ((digitsToNat cs : Nat) : Int) else none
  let v : Option Int :=
    match s.toList with
    | '+' :: rest => digits rest
    | '-' :: rest => (digits rest).map (fun n => -n)
    | cs => digits cs
  v.bind (fun n => if lo ≤ n ∧ n ≤ hi then some n else none)

/-- Rust `str::parse::<i32>()`. -/
def parse_i32 (s : String) : Option Int := parseIntRange (-2147483648) 2147483647 s

/-- Rust `str::parse::<i64>()`. -/
def parse_i64 (s : String) : Option Int :=
  parseIntRange (-9223372036854775808) 9223372036854775807 s

/-- Rust `str::to_ascii_lowercase` (`Char.toLower` only affects `A`-`Z`). -/
def toAsciiLower (s : String) : String := String.mk (s.toList.map Char.toLower)

/-- Rust `str::contains(pat)`: substring containment. -/
def strContains (hay pat : String) : Bool :=
  let hl := hay.toList
  let pl := pat.toList
  (List.range (hl.length + 1)).any (fun i => pl.isPrefixOf (hl.drop i))

/-- The structural-validity test applied to a (trimmed) enclosure URL:
`url.starts_with("http://") || url.starts_with("https://")`. -/
def isHttpUrl (u : String) : Bool :=
  startsWithS u "http://" || startsWithS u "https://"

/-! ## `src/utils.rs`: pure helpers -/

/-- `utils::truncate_int`: `number.clamp(-2147483647, 2147483647)`. -/
def truncate_int (n : Int) : Int := max (-2147483647) (min n 2147483647)

/-- `utils::truncate_str`: trim, then keep at most `max_len` characters. -/
def truncate_str (s : String) (maxLen : Nat) : String :=
  String.mk ((trimS s).toList.take maxLen)

/-- `utils::guess_enclosure_type`: mime type guessed by substring checks on
the URL, in source order, defaulting to the empty string. -/
def guess_enclosure_type (url : String) : String :=
  if strContains url ".m4v" then "video/mp4"
  else if strContains url ".mp4" then "video/mp4"
  else if strContains url ".avi" then "video/avi"
  else if strContains url ".mov" then "video/quicktime"
  else if strContains url ".mp3" then "audio/mpeg"
  else if strContains url ".m4a" then "audio/mp4"
  else if strContains url ".wav" then "audio/wav"
  else if strContains url ".ogg" then "audio/ogg"
  else if strContains url ".wmv" then "video/x-ms-wmv"
  else ""

/-- Two's-complement `i32` wrap-around: the value a Rust `i32` arithmetic
operation stores under the release-profile overflow semantics, as
`% 2^32` re-centered into `[-2^31, 2^31)`. -/
def wrap32 (n : Int) : Int := (n + 2147483648) % 4294967296 - 2147483648

/-- `utils::time_to_seconds`: split on `:`; with two fields `m*60+s`, with
three fields `h*3600+m*60+s` (each field `parse::<i32>().unwrap_or(0)`),
otherwise `parse::<i32>().unwrap_or(30*60)` on the whole string.  The
source computes on `i32`, and a field near `i32::MAX` makes the products
overflow; each arithmetic step is therefore wrapped with `wrap32` (the
wrapping two's-complement semantics; a debug build would panic at the
same step instead of wrapping). -/
def time_to_seconds (time_string : String) : Int :=
  let parts := splitOnCharS time_string ':'
  match parts.length - 1 with
  | 1 =>
    let minutes := (parse_i32 (parts.getD 0 "")).getD 0
    let seconds := (parse_i32 (parts.getD 1 "")).getD 0
    wrap32 (wrap32 (minutes * 60) + seconds)
  | 2 =>
    let hours := (parse_i32 (parts.getD 0 "")).getD 0
    let minutes := (parse_i32 (parts.getD 1 "")).getD 0
    let seconds := (parse_i32 (parts.getD 2 "")).getD 0
    wrap32 (wrap32 (wrap32 (hours * 3600) + wrap32 (minutes * 60)) + seconds)
  | _ => (parse_i32 time_string).getD (30 * 60)

/-- `utils::parse_itunes_duration`: whole-seconds `i32` (clamped by
`truncate_int`) if it parses, otherwise `time_to_seconds`. -/
def parse_itunes_duration (raw : String) : Int :=
  match parse_i32 raw with
  | some seconds => truncate_int seconds
  | none => time_to_seconds raw

/-- `utils::calculate_update_frequency`.  The Rust function reads the wall
clock; we pass that reading in as `now` (unix seconds). -/
def calculate_update_frequency (now : Int) (pubdates : List Int) : Int :=
  let time400 := now - (400 * 24 * 60 * 60)
  let time200 := now - (200 * 24 * 60 * 60)
  let time100 := now - (100 * 24 * 60 * 60)
  let time40 := now - (40 * 24 * 60 * 60)
  let time20 := now - (20 * 24 * 60 * 60)
  let time10 := now - (10 * 24 * 60 * 60)
  let time5 := now - (5 * 24 * 60 * 60)
  if (pubdates.filter (fun time => time > time400)).length = 0 then 9
  else if (pubdates.filter (fun time => time > time200)).length = 0 then 8
  else if (pubdates.filter (fun time => time > time100)).length = 0 then 7
  else if (pubdates.filter (fun time => time > time5)).length > 1 then 1
  else if (pubdates.filter (fun time => time > time10)).length > 1 then 2
  else if (pubdates.filter (fun time => time > time20)).length > 1 then 3
  else if (pubdates.filter (fun time => time > time40)).length > 1 then 4
  else if (pubdates.filter (fun time => time > time100)).length > 1 then 5
  else if (pubdates.filter (fun time => time > time200)).length > 1 then 6
  else if (pubdates.filter (fun time => time > time400)).length ≥ 1 then 7
  else 0

/-- `utils::CATEGORY_LOOKUP` (index 0 is the empty sentinel). -/
def CATEGORY_LOOKUP : List String :=
  ["", "arts", "books", "design", "fashion", "beauty", "food", "performing", "visual", "business",
   "careers", "entrepreneurship", "investing", "management", "marketing", "nonprofit", "comedy",
   "interviews", "improv", "standup", "education", "courses", "howto", "language", "learning",
   "selfimprovement", "fiction", "drama", "history", "health", "fitness", "alternative", "medicine",
   "mental", "nutrition", "sexuality", "kids", "family", "parenting", "pets", "animals", "stories",
   "leisure", "animation", "manga", "automotive", "aviation", "crafts", "games", "hobbies", "home",
   "garden", "videogames", "music", "commentary", "news", "daily", "entertainment", "government",
   "politics", "buddhism", "christianity", "hinduism", "islam", "judaism", "religion", "spirituality",
   "science", "astronomy", "chemistry", "earth", "life", "mathematics", "natural", "nature", "physics",
   "social", "society", "culture", "documentary", "personal", "journals", "philosophy", "places",
   "travel", "relationships", "sports", "baseball", "basketball", "cricket", "fantasy", "football",
   "golf", "hockey", "rugby", "running", "soccer", "swimming", "tennis", "volleyball", "wilderness",
   "wrestling", "technology", "truecrime", "tv", "film", "aftershows", "reviews", "climate", "weather",
   "tabletop", "role-playing", "cryptocurrency"]

/-- The per-token normalization applied just before taxonomy lookup:
`name.replace(' ', "").replace('-', "")`. -/
def stripSpacesHyphens (s : String) : String :=
  String.mk (s.toList.filter (fun c => c ≠ ' ' && c ≠ '-'))

/-- The lowercased, trimmed, non-empty category token list with the
compound tokens appended, as built at the top of `build_category_ids`. -/
def categoryTokens (raw : List String) : List String :=
  let cats := (raw.map (fun s => toAsciiLower (trimS s))).filter (fun s => !isEmptyS s)
  let cats := if cats.contains "video" && cats.contains "games" then cats ++ ["videogames"] else cats
  let cats := if cats.contains "true" && cats.contains "crime" then cats ++ ["truecrime"] else cats
  let cats := if cats.contains "after" && cats.contains "shows" then cats ++ ["aftershows"] else cats
  let cats :=
    if cats.contains "self" && cats.contains "improvement" then cats ++ ["selfimprovement"] else cats
  let cats := if cats.contains "how" && cats.contains "to" then cats ++ ["howto"] else cats
  cats

/-- One step of the slot-filling loop in `build_category_ids`: `ids` is the
11-slot vector, `seen` the number of slots filled so far.  The Rust loop breaks
once `seen >= 8`; since `seen` never decreases, skipping the remaining
tokens (as a fold must) produces the same vector. -/
def categoryStep (acc : List Int × Nat) (name : String) : List Int × Nat :=
  if acc.2 ≥ 8 then acc
  else
    match CATEGORY_LOOKUP.findIdx? (fun v => v = stripSpacesHyphens name) with
    | some idx => if idx > 0 then (acc.1.set (acc.2 + 1) (idx : Int), acc.2 + 1) else acc
    | none => acc

/-- `utils::build_category_ids`. -/
def build_category_ids (raw : List String) : List Int :=
  ((categoryTokens raw).foldl categoryStep (List.replicate 11 0, 0)).1

/-- `utils::map_value_type`. -/
def map_value_type (raw : String) : Int :=
  let k := toAsciiLower (trimS raw)
  if k = "lightning" then 0
  else if k = "hbd" then 1
  else if k = "bitcoin" then 2
  else 0

/-- `utils::md5_hex_from_parts`, under the byte-stream digest model: the
context consumes the trimmed part for each part, so the digest is determined
by the concatenation of the trimmed parts. -/
def md5_hex_from_parts (parts : List String) : String :=
  parts.foldl (fun acc part => acc ++ (trimS part)) ""

/-! ## JSON model (`serde_json::Value` restricted to what the engine emits) -/

inductive Json where
  | null : Json
  | bool (b : Bool) : Json
  | int (n : Int) : Json
  | str (s : String) : Json
  | arr (xs : List Json) : Json
  | obj (entries : List (String × Json)) : Json

/-- `JsonValue::from(Option<i64>)`: `null` when absent. -/
def jsonOfOptInt : Option Int → Json
  | some v => Json.int v
  | none => Json.null

/-- Lowercase hex digit. -/
def hexDigit (n : Nat) : Char :=
  if n < 10 then Char.ofNat (48 + n) else Char.ofNat (87 + n)

/-- Four-digit lowercase hex, as in serde_json's `\u00XX` escapes. -/
def hex4 (n : Nat) : String :=
  String.mk [hexDigit (n / 4096 % 16), hexDigit (n / 256 % 16), hexDigit (n / 16 % 16),
    hexDigit (n % 16)]

/-- serde_json's string escaping (compact form). -/
def escapeChar (c : Char) : String :=
  if c = '"' then "\\\""
  else if c = '\\' then "\\\\"
  else if c = '\n' then "\\n"
  else if c = '\r' then "\\r"
  else if c = '\t' then "\\t"
  else if c.toNat = 8 then "\\b"
  else if c.toNat = 12 then "\\f"
  else if c.toNat < 32 then "\\u" ++ hex4 c.toNat
  else String.singleton c

def quoteStr (s : String) : String :=
  "\"" ++ String.join (s.toList.map escapeChar) ++ "\""

mutual

/-- serde_json compact serialization (`Value::to_string`). -/
def serializeJson : Json → String
  | Json.null => "null"
  | Json.bool b => if b then "true" else "false"
  | Json.int n => toString n
  | Json.str s => quoteStr s
  | Json.arr xs => "[" ++ serializeArr xs ++ "]"
  | Json.obj l => "\x7b" ++ serializeObj l ++ "\x7d"

def serializeArr : List Json → String
  | [] => ""
  | [x] => serializeJson x
  | x :: y :: xs => serializeJson x ++ "," ++ serializeArr (y :: xs)

def serializeObj : List (String × Json) → String
  | [] => ""
  | [(k, v)] => quoteStr k ++ ":" ++ serializeJson v
  | (k, v) :: e :: xs => quoteStr k ++ ":" ++ serializeJson v ++ "," ++ serializeObj (e :: xs)

end

/-- Lexicographic order on character lists by code point (Rust's `Ord`
for `String` is byte-wise lexicographic on UTF-8, which agrees with
code-point lexicographic order). -/
def charListLeB : List Char → List Char → Bool
  | [], _ => true
  | _ :: _, [] => false
  | a :: as, b :: bs => if a = b then charListLeB as bs else decide (a.toNat < b.toNat)

/-- Rust `String` `<=`. -/
def strLeB (a b : String) : Bool := charListLeB a.toList b.toList

/-- Key order used by `canonicalize_json`'s sort. -/
def keyLE (a b : String × Json) : Prop := strLeB a.1 b.1 = true

instance : DecidableRel keyLE := fun a b => inferInstanceAs (Decidable (strLeB a.1 b.1 = true))

mutual

/-- `utils::canonicalize_json`: sort object keys at every nesting level;
arrays keep insertion order.  (The Rust code sorts the keys and then
canonicalizes each looked-up value; since every constructed map has
distinct keys, canonicalizing the values first and then sorting by key
produces the identical tree.) -/
def canonicalize_json : Json → Json
  | Json.obj l => Json.obj (List.insertionSort keyLE (canonObj l))
  | Json.arr xs => Json.arr (canonArr xs)
  | v => v

def canonArr : List Json → List Json
  | [] => []
  | x :: xs => canonicalize_json x :: canonArr xs

def canonObj : List (String × Json) → List (String × Json)
  | [] => []
  | (k, v) :: xs => (k, canonicalize_json v) :: canonObj xs

end

/-- `utils::canonical_json_string`. -/
def canonical_json_string (v : Json) : String := serializeJson (canonicalize_json v)

/-- Boolean test for consecutive-sorted keys of an object entry list. -/
def keysChain : List (String × Json) → Bool
  | [] => true
  | [_] => true
  | a :: b :: rest => strLeB a.1 b.1 && keysChain (b :: rest)

mutual

/-- "Object keys are sorted lexicographically at every nesting level." -/
def sortedKeysAtEveryLevel : Json → Bool
  | Json.obj l => keysChain l && sortedObjVals l
  | Json.arr xs => sortedArrVals xs
  | _ => true

def sortedArrVals : List Json → Bool
  | [] => true
  | x :: xs => sortedKeysAtEveryLevel x && sortedArrVals xs

def sortedObjVals : List (String × Json) → Bool
  | [] => true
  | (_, v) :: xs => sortedKeysAtEveryLevel v && sortedObjVals xs

end

/-- Rust `Vec::dedup`: remove consecutive duplicate entries, keeping the
first of each run. -/
def dedupAdjacent : List String → List String
  | [] => []
  | [a] => [a]
  | a :: b :: rest =>
    if a = b then dedupAdjacent (b :: rest) else a :: dedupAdjacent (b :: rest)

/-! ## Parser state (`src/parser_state.rs`, as actually used by the
handlers under `src/tags/` and by `src/outputs.rs`; the copy of
`parser_state.rs` in the repository is stale — e.g. it types `pub_date` as
`i64` while `tags/pub_date.rs` and `outputs.rs` use it as a string — so
field types follow the usage sites).  Fields that only the absent
`tags/image.rs`, owner/locked handlers touch (`in_channel_image`,
`in_channel_itunes_owner`, `in_channel_podcast_locked`,
`in_channel_podcast_funding`, `channel_categories`) are omitted: no
modelled handler reads them. -/

/-- One `<podcast:valueRecipient>` accumulator (`ValueRecipient::default()`
plus the attribute loop in `podcast_value::on_value_recipient`). -/
structure ValueRecipient where
  name : String := ""
  recipient_type : String := ""
  address : String := ""
  split : Int := 0
  fee : Bool := false
  custom_key : Option String := none
  custom_value : Option String := none

structure ParserState where
  -- channel scope
  in_channel : Bool := false
  channel_title : String := ""
  channel_link : String := ""
  channel_description : String := ""
  channel_itunes_summary : String := ""
  channel_language : String := ""
  channel_generator : String := ""
  channel_itunes_author : String := ""
  channel_itunes_owner_name : String := ""
  channel_itunes_owner_email : String := ""
  channel_itunes_type : String := ""
  channel_itunes_new_feed_url : String := ""
  channel_explicit : Int := 0
  channel_itunes_image : String := ""
  channel_image : String := ""
  channel_podcast_guid : String := ""
  channel_podcast_locked : Int := 0
  channel_podcast_owner : String := ""
  channel_podcast_funding_url : String := ""
  channel_podcast_funding_text : String := ""
  pubsub_hub_url : String := ""
  pubsub_self_url : String := ""
  channel_categories_raw : List String := []
  in_standard_category : Bool := false
  channel_value_pending : Option (Int × String) := none
  channel_value_has_lightning : Bool := false
  channel_pub_date : String := ""
  -- item scope
  in_item : Bool := false
  item_written : Bool := false
  item_has_valid_enclosure : Bool := false
  title : String := ""
  itunes_title : String := ""
  link : String := ""
  description : String := ""
  itunes_summary : String := ""
  content_encoded : String := ""
  content : String := ""
  pub_date : String := ""
  guid : String := ""
  itunes_duration : String := ""
  itunes_episode : String := ""
  itunes_season : String := ""
  itunes_episode_type : String := ""
  itunes_explicit : Int := 0
  itunes_image : String := ""
  item_image : String := ""
  in_item_image : Bool := false
  enclosure_url : String := ""
  enclosure_length : String := ""
  enclosure_type : String := ""
  in_podcast_funding : Bool := false
  podcast_funding_url : String := ""
  podcast_funding_text : String := ""
  in_podcast_transcript : Bool := false
  current_transcript_url : String := ""
  current_transcript_type : String := ""
  in_podcast_chapters : Bool := false
  current_chapter_url : String := ""
  current_chapter_type : String := ""
  in_podcast_soundbite : Bool := false
  current_soundbite_title : String := ""
  current_soundbite_start : String := ""
  current_soundbite_duration : String := ""
  in_podcast_person : Bool := false
  current_person_name : String := ""
  current_person_role : String := ""
  current_person_group : String := ""
  current_person_img : String := ""
  current_person_href : String := ""
  in_podcast_value : Bool := false
  value_recipients : List ValueRecipient := []
  value_model_type : String := ""
  value_model_method : String := ""
  value_model_suggested : String := ""
  item_value_pending : Option (Int × String) := none
  item_value_has_lightning : Bool := false
  in_podcast_alternate_enclosure : Bool := false
  -- item metrics
  item_pubdates : List Int := []
  item_count : Int := 0
  newest_item_pubdate : Option Int := none
  oldest_item_pubdate : Option Int := none
  item_hash : String := ""

/-- `ParserState::default()`. -/
def initState : ParserState := {}

/-- Per-run environment of the engine, passed instead of the ambient
effects the Rust code reads: `feedId` is the id parsed from the input file
name; `timeAdded` and `now` are the wall-clock readings used for
`timeadded`/`createdon` and for `calculate_update_frequency`; `parseDate`
stands for `utils::parse_pub_date_to_unix`, whose source
(chrono RFC-2822/RFC-3339 parsing) is not under `src/` — per the spec it
returns the unix timestamp for a recognized date string and `None`
otherwise, and we treat it as an opaque parameter. -/
structure Cfg where
  feedId : Option Int := none
  parseDate : String → Option Int := fun _ => none
  timeAdded : Int := 0
  now : Int := 0

/-- One emitted record (`outputs::SqlInsert`, minus the side effects of
writing it to disk). -/
structure Rec where
  table : String
  columns : List String
  values : List Json

/-- Positional value of a named column, as the repository's tests read
records back. -/
def recValue (r : Rec) (col : String) : Option Json :=
  (r.columns.zip r.values).lookup col

/-- The synthetic child-record key `"{feed_id}_{item_count + 1}"`. -/
def itemIdOf (cfg : Cfg) (s : ParserState) : String :=
  (toString ((cfg.feedId).getD 0)) ++ "_" ++ toString (s.item_count + 1)

/-! ## Value-block construction (`utils::build_value_block`) -/

/-- The `fee` attribute mapping in `podcast_value::on_value_recipient`:
`matches!(val.as_str(), "true" | "yes" | "1")` on the lowercased value. -/
def feeAttrTrue (v : String) : Bool :=
  let val := toAsciiLower v
  val == "true" || val == "yes" || val == "1"

/-- The attribute loop of `podcast_value::on_value_recipient` applied to
one attribute. -/
def recipientAttrStep (vr : ValueRecipient) (kv : String × String) : ValueRecipient :=
  if kv.1 = "name" then { vr with name := kv.2 }
  else if kv.1 = "type" then { vr with recipient_type := kv.2 }
  else if kv.1 = "address" then { vr with address := kv.2 }
  else if kv.1 = "split" then { vr with split := (parse_i32 kv.2).getD 0 }
  else if kv.1 = "fee" then { vr with fee := feeAttrTrue kv.2 }
  else if kv.1 = "customKey" then { vr with custom_key := some kv.2 }
  else if kv.1 = "customValue" then { vr with custom_value := some kv.2 }
  else vr

/-- A recipient built from an attribute list (`ValueRecipient::default()`
then the attribute loop). -/
def recipientFromAttrs (attrs : List (String × String)) : ValueRecipient :=
  attrs.foldl recipientAttrStep {}

/-- The JSON object built for one recipient in `build_value_block`
(`serde_json::Map` inserts with distinct keys, in source order; `fee` is
inserted only when true, `customKey`/`customValue` only when present). -/
def destinationJson (r : ValueRecipient) : Json :=
  Json.obj
    ([("name", Json.str r.name), ("type", Json.str r.recipient_type),
      ("address", Json.str r.address), ("split", Json.int r.split)]
      ++ (if r.fee then [("fee", Json.bool true)] else [])
      ++ (match r.custom_key with | some k => [("customKey", Json.str k)] | none => [])
      ++ (match r.custom_value with | some v => [("customValue", Json.str v)] | none => []))

/-- The `model` entries of `build_value_block`.  The Rust code collects
them in a `HashMap` whose iteration order is unspecified; the entry list
below fixes one order, and `canonicalize_json_obj_perm` below proves the
canonical serialization is the same for every order. -/
def modelEntries (s : ParserState) : List (String × Json) :=
  [("type", Json.str s.value_model_type), ("method", Json.str s.value_model_method)]
    ++ (if isEmptyS s.value_model_suggested then []
        else [("suggested", Json.str s.value_model_suggested)])

/-- The `value_block` JSON assembled by `utils::build_value_block` before
canonicalization (`None` when the recipient list is empty). -/
def build_value_block_json (s : ParserState) : Option Json :=
  if s.value_recipients.isEmpty then none
  else
    some (Json.obj
      [("model", Json.obj (modelEntries s)),
       ("destinations", Json.arr ((s.value_recipients.take 100).map destinationJson))])

/-- `utils::build_value_block`. -/
def build_value_block (s : ParserState) : Option String :=
  (build_value_block_json s).map canonical_json_string

/-! ## Record builders (`src/outputs.rs`, minus file I/O) -/

/-- `outputs::write_newsfeeds`. -/
def write_newsfeeds (cfg : Cfg) (s : ParserState) : Rec :=
  let final_image :=
    if isEmptyS s.channel_image && !isEmptyS s.channel_itunes_image then s.channel_itunes_image
    else s.channel_image
  let final_description :=
    if !isEmptyS (trimS s.channel_itunes_summary) then (trimS s.channel_itunes_summary)
    else (trimS s.channel_description)
  let final_owner0 := (trimS s.channel_podcast_owner)
  let final_owner1 :=
    if isEmptyS final_owner0 && s.channel_podcast_locked = 1 then
      (trimS s.channel_itunes_owner_email)
    else final_owner0
  let final_owner := (trimS final_owner1)
  let final_title := (trimS s.channel_title)
  let final_language := (trimS s.channel_language)
  let chash := md5_hex_from_parts
    [final_title, (trimS s.channel_link), final_language, (trimS s.channel_generator),
     (trimS s.channel_itunes_author), (trimS s.channel_itunes_owner_name),
     (trimS s.channel_itunes_owner_email)]
  let podcast_chapters_hash := s.item_hash
  let update_frequency := calculate_update_frequency cfg.now s.item_pubdates
  { table := "newsfeeds",
    columns := ["id", "title", "url", "content", "language", "generator", "itunes_author",
      "itunes_owner_name", "itunes_owner_email", "itunes_type", "itunes_new_feed_url",
      "explicit", "image", "itunes_image", "podcast_locked", "podcast_owner",
      "artwork_url_600", "item_count", "newest_item_pubdate", "oldest_item_pubdate",
      "chash", "podcast_chapters", "update_frequency", "itunes_id"],
    values := [jsonOfOptInt cfg.feedId, Json.str final_title, Json.str (trimS s.channel_link),
      Json.str final_description, Json.str final_language, Json.str (trimS s.channel_generator),
      Json.str (trimS s.channel_itunes_author), Json.str (trimS s.channel_itunes_owner_name),
      Json.str (trimS s.channel_itunes_owner_email), Json.str (trimS s.channel_itunes_type),
      Json.str (trimS s.channel_itunes_new_feed_url), Json.int s.channel_explicit,
      Json.str (trimS final_image), Json.str (trimS s.channel_itunes_image),
      Json.int s.channel_podcast_locked, Json.str final_owner,
      Json.str (trimS s.channel_itunes_image), Json.int s.item_count,
      jsonOfOptInt s.newest_item_pubdate, jsonOfOptInt s.oldest_item_pubdate,
      Json.str chash, Json.str podcast_chapters_hash, Json.int update_frequency,
      Json.int 0] }

/-- `outputs::write_nfitems`. -/
def write_nfitems (cfg : Cfg) (s : ParserState) : Rec :=
  let final_item_image :=
    if !isEmptyS s.item_image then s.item_image
    else if !isEmptyS s.itunes_image then s.itunes_image
    else if !isEmptyS s.channel_image then s.channel_image
    else if !isEmptyS s.channel_itunes_image then s.channel_itunes_image
    else ""
  let final_title := if !isEmptyS s.itunes_title then s.itunes_title else (trimS s.title)
  let final_description :=
    if !isEmptyS s.content then (trimS s.content)
    else if !isEmptyS s.itunes_summary then (trimS s.itunes_summary)
    else if !isEmptyS s.content_encoded then (trimS s.content_encoded)
    else if !isEmptyS s.description then (trimS s.description)
    else ""
  let itunes_season := parse_i32 (trimS s.itunes_season)
  let itunes_episode := parse_i32 (trimS s.itunes_episode)
  let duration_secs := parse_itunes_duration (trimS s.itunes_duration)
  let final_enclosure_type := (trimS s.enclosure_type)
  let final_enclosure_url := truncate_str (trimS s.enclosure_url) 738
  let enclosure_length := parse_i64 (trimS s.enclosure_length)
  let final_guid := truncate_str (trimS s.guid) 740
  let pub_date_ts := (cfg.parseDate (trimS s.pub_date)).getD ((parse_i64 (trimS s.pub_date)).getD 0)
  { table := "nfitems",
    columns := ["feedid", "title", "link", "description", "timestamp", "itunes_image", "image",
      "guid", "itunes_duration", "itunes_episode", "itunes_season", "itunes_episode_type",
      "itunes_explicit", "enclosure_url", "enclosure_length", "enclosure_type", "timeadded",
      "purge"],
    values := [jsonOfOptInt cfg.feedId, Json.str final_title, Json.str (trimS s.link),
      Json.str final_description, Json.int pub_date_ts, Json.str (trimS s.itunes_image),
      Json.str (trimS final_item_image), Json.str final_guid, Json.int duration_secs,
      jsonOfOptInt itunes_episode, jsonOfOptInt itunes_season,
      Json.str (trimS s.itunes_episode_type), Json.int s.itunes_explicit,
      Json.str final_enclosure_url, jsonOfOptInt enclosure_length,
      Json.str final_enclosure_type, Json.int cfg.timeAdded, Json.int 0] }

/-- `outputs::write_nfguids`. -/
def write_nfguids (cfg : Cfg) (s : ParserState) : Option Rec :=
  let guid := (trimS s.channel_podcast_guid)
  if isEmptyS guid then none
  else
    some { table := "nfguids", columns := ["feedid", "guid"],
           values := [jsonOfOptInt cfg.feedId, Json.str guid] }

/-- `outputs::write_pubsub`. -/
def write_pubsub (cfg : Cfg) (s : ParserState) : Option Rec :=
  if isEmptyS (trimS s.pubsub_hub_url) && isEmptyS (trimS s.pubsub_self_url) then none
  else
    some { table := "pubsub", columns := ["feedid", "hub_url", "self_url"],
           values := [jsonOfOptInt cfg.feedId, Json.str (trimS s.pubsub_hub_url),
             Json.str (trimS s.pubsub_self_url)] }

/-- `outputs::write_nffunding`. -/
def write_nffunding (cfg : Cfg) (s : ParserState) : Option Rec :=
  if isEmptyS (trimS s.channel_podcast_funding_url) then none
  else
    some { table := "nffunding", columns := ["feedid", "url", "message"],
           values := [jsonOfOptInt cfg.feedId, Json.str (trimS s.channel_podcast_funding_url),
             Json.str (trimS s.channel_podcast_funding_text)] }

/-- `outputs::write_nfcategories`. -/
def write_nfcategories (cfg : Cfg) (s : ParserState) : Option Rec :=
  if s.channel_categories_raw.isEmpty then none
  else
    let raw := dedupAdjacent s.channel_categories_raw
    let cat_ids := build_category_ids raw
    if (cat_ids.drop 1).all (fun v => v = 0) then none
    else
      some { table := "nfcategories",
             columns := ["feedid", "catid1", "catid2", "catid3", "catid4", "catid5",
               "catid6", "catid7", "catid8", "catid9", "catid10"],
             values := jsonOfOptInt cfg.feedId ::
               ((cat_ids.drop 1).map (fun v => Json.int v)) }

/-- `outputs::write_nfitem_transcript`. -/
def write_nfitem_transcript (cfg : Cfg) (s : ParserState) : Option Rec :=
  if isEmptyS (trimS s.current_transcript_url) then none
  else
    some { table := "nfitem_transcripts", columns := ["itemid", "url", "type"],
           values := [Json.str (itemIdOf cfg s), Json.str (trimS s.current_transcript_url),
             Json.str (trimS s.current_transcript_type)] }

/-- `outputs::write_nfitem_chapters`. -/
def write_nfitem_chapters (cfg : Cfg) (s : ParserState) : Option Rec :=
  if isEmptyS (trimS s.current_chapter_url) then none
  else
    some { table := "nfitem_chapters", columns := ["itemid", "url", "type"],
           values := [Json.str (itemIdOf cfg s), Json.str (trimS s.current_chapter_url),
             Json.str (trimS s.current_chapter_type)] }

/-- `outputs::write_nfitem_soundbites`. -/
def write_nfitem_soundbites (cfg : Cfg) (s : ParserState) : Option Rec :=
  if isEmptyS (trimS s.current_soundbite_start) || isEmptyS (trimS s.current_soundbite_duration) then
    none
  else
    some { table := "nfitem_soundbites",
           columns := ["itemid", "title", "start_time", "duration"],
           values := [Json.str (itemIdOf cfg s), Json.str (trimS s.current_soundbite_title),
             Json.str (trimS s.current_soundbite_start),
             Json.str (trimS s.current_soundbite_duration)] }

/-- `outputs::write_nfitem_persons`. -/
def write_nfitem_persons (cfg : Cfg) (s : ParserState) : Option Rec :=
  if isEmptyS (trimS s.current_person_name) then none
  else
    some { table := "nfitem_persons",
           columns := ["itemid", "name", "role", "grp", "img", "href"],
           values := [Json.str (itemIdOf cfg s), Json.str (trimS s.current_person_name),
             Json.str (trimS s.current_person_role), Json.str (trimS s.current_person_group),
             Json.str (trimS s.current_person_img), Json.str (trimS s.current_person_href)] }

/-- `outputs::write_nfvalue_from_block` (`createdon` is the wall clock,
passed as `cfg.now`). -/
def write_nfvalue_from_block (cfg : Cfg) (value_type : Int) (block : String) : Rec :=
  { table := "nfvalue", columns := ["feedid", "value_block", "type", "createdon"],
    values := [jsonOfOptInt cfg.feedId, Json.str block, Json.int value_type,
      Json.int cfg.now] }

/-- `outputs::write_nfitem_value_from_block`. -/
def write_nfitem_value_from_block (cfg : Cfg) (s : ParserState) (value_type : Int)
    (block : String) : Rec :=
  { table := "nfitem_value", columns := ["itemid", "value_block", "type", "createdon"],
    values := [Json.str (itemIdOf cfg s), Json.str block, Json.int value_type,
      Json.int cfg.now] }

/-! ## Tag handlers (`src/tags/*.rs`)

Attribute lists are passed pre-resolved: for handlers that assign each
matching attribute unconditionally after clearing the target (transcript,
chapters, soundbite, person, value model, atom:link), an absent attribute
and an empty attribute value produce the same state, so the handler takes
plain strings; where presence matters (link `href`, funding `url`,
itunes:image `href`/`url`, category `text`) it takes an `Option String`.
`podcast:valueRecipient` keeps the raw attribute list because its loop is
last-write-wins per attribute name. -/

/-- `tags::channel::on_start` (the clears of fields owned by handlers that
are absent from `src/` — `in_channel_image`, owner/locked scope flags,
`channel_categories` — are dropped along with those fields). -/
def channel_on_start (s : ParserState) : ParserState :=
  { s with
    in_channel := true, channel_title := "", channel_link := "",
    channel_description := "", channel_itunes_summary := "", channel_language := "",
    channel_generator := "", channel_itunes_author := "", channel_itunes_owner_name := "",
    channel_itunes_owner_email := "", channel_itunes_type := "", channel_itunes_image := "",
    channel_image := "", channel_explicit := 0, channel_itunes_new_feed_url := "",
    channel_podcast_guid := "", channel_podcast_locked := 0, channel_podcast_owner := "",
    channel_podcast_funding_url := "", channel_podcast_funding_text := "",
    pubsub_hub_url := "", pubsub_self_url := "", channel_categories_raw := [],
    in_standard_category := false, channel_value_pending := none,
    channel_value_has_lightning := false, item_pubdates := [], item_count := 0,
    newest_item_pubdate := none, oldest_item_pubdate := none, item_hash := "",
    channel_pub_date := "" }

/-- `tags::channel::on_end`. -/
def channel_on_end (cfg : Cfg) (s : ParserState) : ParserState × List Rec :=
  if s.in_channel then
    let recs := [write_newsfeeds cfg s] ++ (write_nfguids cfg s).toList
      ++ (write_pubsub cfg s).toList ++ (write_nffunding cfg s).toList
      ++ (write_nfcategories cfg s).toList
    match s.channel_value_pending with
    | some (vt, block) =>
      ({ s with channel_value_pending := none, in_channel := false },
        recs ++ [write_nfvalue_from_block cfg vt block])
    | none => ({ s with in_channel := false }, recs)
  else (s, [])

/-- `tags::item::on_start`. -/
def item_on_start (s : ParserState) : ParserState :=
  { s with
    in_item := true, item_has_valid_enclosure := false, item_written := false,
    title := "", itunes_title := "", link := "", description := "", itunes_summary := "",
    content_encoded := "", pub_date := "", guid := "", itunes_duration := "",
    itunes_episode := "", itunes_season := "", itunes_episode_type := "",
    itunes_explicit := 0, itunes_image := "", item_image := "", in_item_image := false,
    enclosure_url := "", enclosure_length := "", enclosure_type := "",
    podcast_funding_url := "", podcast_funding_text := "", in_podcast_funding := false,
    in_podcast_transcript := false, current_transcript_url := "",
    current_transcript_type := "", in_podcast_chapters := false, current_chapter_url := "",
    current_chapter_type := "", in_podcast_soundbite := false,
    current_soundbite_title := "", current_soundbite_start := "",
    current_soundbite_duration := "", in_podcast_person := false,
    current_person_name := "", current_person_role := "", current_person_group := "",
    current_person_img := "", current_person_href := "", in_podcast_value := false,
    value_recipients := [], value_model_type := "", value_model_method := "",
    value_model_suggested := "", item_value_pending := none,
    item_value_has_lightning := false }

/-- The effective title folded into the running item hash:
itunes:title when its trimmed text is non-empty, else the trimmed title. -/
def hashTitleOf (s : ParserState) : String :=
  if !isEmptyS (trimS s.itunes_title) then (trimS s.itunes_title) else (trimS s.title)

/-- `tags::item::on_end`. -/
def item_on_end (cfg : Cfg) (s : ParserState) : ParserState × List Rec :=
  if !s.in_item then (s, [])
  else if !s.item_has_valid_enclosure then
    ({ s with item_value_pending := none, in_item := false }, [])
  else
    let s := if isEmptyS (trimS s.guid) then { s with guid := s.enclosure_url } else s
    let s :=
      if isEmptyS (trimS s.enclosure_type) then
        { s with enclosure_type := guess_enclosure_type s.enclosure_url }
      else s
    let itemRec := write_nfitems cfg s
    let valueRecs :=
      match s.item_value_pending with
      | some (vt, block) => [write_nfitem_value_from_block cfg s vt block]
      | none => []
    let s := { s with item_value_pending := none }
    let pub_date_ts := (cfg.parseDate (trimS s.pub_date)).getD ((parse_i64 (trimS s.pub_date)).getD 0)
    let s := { s with
      item_pubdates := s.item_pubdates ++ [pub_date_ts],
      item_count := s.item_count + 1,
      newest_item_pubdate :=
        match s.newest_item_pubdate with
        | some v => if v ≥ pub_date_ts then some v else some pub_date_ts
        | none => some pub_date_ts,
      oldest_item_pubdate :=
        match s.oldest_item_pubdate with
        | some v => if v ≤ pub_date_ts then some v else some pub_date_ts
        | none => some pub_date_ts,
      item_hash := s.item_hash ++ hashTitleOf s ++ (trimS s.link) ++ (trimS s.enclosure_url)
        ++ (trimS s.enclosure_type) ++ (trimS s.podcast_funding_url)
        ++ (trimS s.podcast_funding_text) }
    ({ s with in_item := false }, itemRec :: valueRecs)

/-- `tags::link::on_start`. -/
def link_on_start (href : Option String) (s : ParserState) : ParserState :=
  if s.in_item then
    match href with
    | some h => { s with link := h }
    | none => s
  else if s.in_channel && isEmptyS s.channel_link then
    match href with
    | some h => { s with channel_link := h }
    | none => s
  else s

/-- `tags::link::on_text`. -/
def link_on_text (data : String) (s : ParserState) : ParserState :=
  if s.in_item && isEmptyS s.link then { s with link := s.link ++ data }
  else if s.in_channel && isEmptyS s.channel_link then
    { s with channel_link := s.channel_link ++ data }
  else s

/-- `tags::atom_link::on_start`. -/
def atom_link_on_start (rel href length link_type : String) (s : ParserState) : ParserState :=
  if rel = "alternate" then
    if s.in_item && isEmptyS s.link then { s with link := href }
    else if s.in_channel && !s.in_item && isEmptyS s.channel_link then
      { s with channel_link := href }
    else s
  else if rel = "enclosure" then
    if s.in_item && isEmptyS s.enclosure_url then
      let s := { s with
        enclosure_url := href, enclosure_length := length,
        enclosure_type := link_type }
      if isHttpUrl (trimS s.enclosure_url) then { s with item_has_valid_enclosure := true }
      else s
    else s
  else if rel = "hub" then
    if s.in_channel && !s.in_item && isEmptyS s.pubsub_hub_url then
      { s with pubsub_hub_url := href }
    else s
  else if rel = "self" then
    if s.in_channel && !s.in_item && isEmptyS s.pubsub_self_url then
      { s with pubsub_self_url := href }
    else s
  else s

/-- Modelled from the spec: `src/tags/enclosure.rs` is declared in
`tags/mod.rs` and dispatched for `<enclosure>` start events but its source
is not under `src/`.  Per the spec's Field Resolver table ("enclosure
(multi): **first** valid enclosure seen wins; subsequent `<enclosure>` or
`rel=enclosure` links are ignored") and the ItemDescriptor invariant (a
structurally valid enclosure is "an `http(s)://` URL captured from an
`<enclosure>` tag or an atom `<link rel=\"enclosure\">`"), it captures the
`url`/`length`/`type` attributes into the item's enclosure fields when no
enclosure has been captured yet, and marks the item valid when the trimmed
URL starts with `http://` or `https://` — mirroring the `rel=enclosure`
branch of `tags/atom_link.rs`. -/
def enclosure_on_start (url length enc_type : String) (s : ParserState) : ParserState :=
  if s.in_item && isEmptyS s.enclosure_url then
    let s := { s with
      enclosure_url := url, enclosure_length := length,
      enclosure_type := enc_type }
    if isHttpUrl (trimS s.enclosure_url) then { s with item_has_valid_enclosure := true }
    else s
  else s

/-- `tags::category::on_start` (`text` attribute form vs. bare form). -/
def category_on_start (textAttr : Option String) (s : ParserState) : ParserState :=
  if !(s.in_channel && !s.in_item) then s
  else
    match textAttr with
    | some val =>
      if !isEmptyS (trimS val) then
        { s with channel_categories_raw := s.channel_categories_raw ++ [(trimS val)] }
      else s
    | none => { s with in_standard_category := true }

/-- `tags::category::on_text`. -/
def category_on_text (data : String) (s : ParserState) : ParserState :=
  if s.in_standard_category then
    if !isEmptyS (trimS data) then
      { s with channel_categories_raw := s.channel_categories_raw ++ [(trimS data)] }
    else s
  else s

/-- `tags::category::on_end`. -/
def category_on_end (s : ParserState) : ParserState :=
  { s with in_standard_category := false }

/-- `tags::pub_date::on_text` (note: the channel branch tests the *item*
`pub_date` field for emptiness, exactly as the source does). -/
def pub_date_on_text (data : String) (s : ParserState) : ParserState :=
  if s.in_item then { s with pub_date := s.pub_date ++ data }
  else if s.in_channel && isEmptyS s.pub_date then
    { s with channel_pub_date := s.channel_pub_date ++ data }
  else s

/-- `tags::itunes_episode::on_text`. -/
def itunes_episode_on_text (data : String) (s : ParserState) : ParserState :=
  if s.in_item then { s with itunes_episode := s.itunes_episode ++ data } else s

/-- Modelled from the spec: `src/tags/itunes_season.rs` is dispatched for
`itunes:season` text but is not under `src/`; per the Field Resolver table
it accumulates the season text of the current item, mirroring
`tags/itunes_episode.rs`. -/
def itunes_season_on_text (data : String) (s : ParserState) : ParserState :=
  if s.in_item then { s with itunes_season := s.itunes_season ++ data } else s

/-- Modelled from the spec: `src/tags/title.rs` is dispatched for `title`
text but is not under `src/`; per the data model it accumulates the item
title inside an item and the channel title (first non-empty wins, like the
other channel text handlers under `src/tags/`) at channel level. -/
def title_on_text (data : String) (s : ParserState) : ParserState :=
  if s.in_item then { s with title := s.title ++ data }
  else if s.in_channel && isEmptyS s.channel_title then
    { s with channel_title := s.channel_title ++ data }
  else s

/-- Modelled from the spec: `src/tags/itunes_title.rs` is dispatched for
`itunes:title` text but is not under `src/`; per the Field Resolver table
("item title: itunes:title (not trimmed) → title") it accumulates the raw
itunes title of the current item. -/
def itunes_title_on_text (data : String) (s : ParserState) : ParserState :=
  if s.in_item then { s with itunes_title := s.itunes_title ++ data } else s

/-- Modelled from the spec: `src/tags/guid.rs` is dispatched for
`guid`/`id` text but is not under `src/`; per the data model it
accumulates the guid of the current item. -/
def guid_on_text (data : String) (s : ParserState) : ParserState :=
  if s.in_item then { s with guid := s.guid ++ data } else s

/-- `tags::itunes_duration::on_start`. -/
def itunes_duration_on_start (s : ParserState) : ParserState :=
  if s.in_item then { s with itunes_duration := "" } else s

/-- `tags::itunes_duration::on_text` (assignment, not accumulation). -/
def itunes_duration_on_text (data : String) (s : ParserState) : ParserState :=
  if s.in_item then { s with itunes_duration := data } else s

/-- `tags::itunes_image::on_start`. -/
def itunes_image_on_start (href : Option String) (s : ParserState) : ParserState :=
  if !s.in_item then s
  else
    match href with
    | some v => { s with itunes_image := v }
    | none => s

/-- `tags::podcast_funding::on_start`. -/
def podcast_funding_on_start (url : Option String) (s : ParserState) : ParserState :=
  if !s.in_item then s
  else
    let s := { s with in_podcast_funding := true }
    match url with
    | some u => { s with podcast_funding_url := u }
    | none => s

/-- `tags::podcast_funding::on_text`. -/
def podcast_funding_on_text (data : String) (s : ParserState) : ParserState :=
  if s.in_podcast_funding then
    { s with podcast_funding_text := s.podcast_funding_text ++ data }
  else s

/-- `tags::podcast_funding::on_end`. -/
def podcast_funding_on_end (s : ParserState) : ParserState :=
  if s.in_podcast_funding then { s with in_podcast_funding := false } else s

/-- `tags::podcast_transcript::on_start` (no alternate-enclosure guard in
the source). -/
def podcast_transcript_on_start (url t_type : String) (s : ParserState) : ParserState :=
  if !s.in_item then s
  else
    { s with
      in_podcast_transcript := true, current_transcript_url := url,
      current_transcript_type := t_type }

/-- `tags::podcast_transcript::on_end`. -/
def podcast_transcript_on_end (cfg : Cfg) (s : ParserState) : ParserState × List Rec :=
  if s.in_podcast_transcript then
    let s := { s with in_podcast_transcript := false }
    if s.item_has_valid_enclosure then
      let s := { s with
        item_hash := s.item_hash ++ (trimS s.current_transcript_url)
        ++ (trimS s.current_transcript_type) }
      (s, (write_nfitem_transcript cfg s).toList)
    else (s, [])
  else (s, [])

/-- `tags::podcast_chapters::on_start` (guarded on the
alternate-enclosure flag). -/
def podcast_chapters_on_start (url c_type : String) (s : ParserState) : ParserState :=
  if !s.in_item || s.in_podcast_alternate_enclosure then s
  else
    { s with
      in_podcast_chapters := true, current_chapter_url := url,
      current_chapter_type := c_type }

/-- `tags::podcast_chapters::on_end`. -/
def podcast_chapters_on_end (cfg : Cfg) (s : ParserState) : ParserState × List Rec :=
  if s.in_podcast_chapters then
    let s := { s with in_podcast_chapters := false }
    if s.item_has_valid_enclosure then
      let s := { s with
        item_hash := s.item_hash ++ (trimS s.current_chapter_url)
        ++ (trimS s.current_chapter_type) }
      (s, (write_nfitem_chapters cfg s).toList)
    else (s, [])
  else (s, [])

/-- `tags::podcast_soundbite::on_start`. -/
def podcast_soundbite_on_start (startTime duration : String) (s : ParserState) : ParserState :=
  if !s.in_item then s
  else
    { s with
      in_podcast_soundbite := true, current_soundbite_title := "",
      current_soundbite_start := startTime, current_soundbite_duration := duration }

/-- `tags::podcast_soundbite::on_text`. -/
def podcast_soundbite_on_text (data : String) (s : ParserState) : ParserState :=
  if s.in_podcast_soundbite then
    { s with current_soundbite_title := s.current_soundbite_title ++ data }
  else s

/-- `tags::podcast_soundbite::on_end`. -/
def podcast_soundbite_on_end (cfg : Cfg) (s : ParserState) : ParserState × List Rec :=
  if s.in_podcast_soundbite then
    let s := { s with in_podcast_soundbite := false }
    if s.item_has_valid_enclosure then
      let s := { s with
        item_hash := s.item_hash ++ (trimS s.current_soundbite_title)
        ++ (trimS s.current_soundbite_start) ++ (trimS s.current_soundbite_duration) }
      (s, (write_nfitem_soundbites cfg s).toList)
    else (s, [])
  else (s, [])

/-- `tags::podcast_person::on_start`. -/
def podcast_person_on_start (role grp img href : String) (s : ParserState) : ParserState :=
  if !s.in_item then s
  else
    { s with
      in_podcast_person := true, current_person_name := "",
      current_person_role := role, current_person_group := grp,
      current_person_img := img, current_person_href := href }

/-- `tags::podcast_person::on_text`. -/
def podcast_person_on_text (data : String) (s : ParserState) : ParserState :=
  if s.in_podcast_person then
    { s with current_person_name := s.current_person_name ++ data }
  else s

/-- `tags::podcast_person::on_end`. -/
def podcast_person_on_end (cfg : Cfg) (s : ParserState) : ParserState × List Rec :=
  if s.in_podcast_person then
    let s := { s with in_podcast_person := false }
    if s.item_has_valid_enclosure then
      let s := { s with
        item_hash := s.item_hash ++ (trimS s.current_person_name)
        ++ (trimS s.current_person_role) ++ (trimS s.current_person_group)
        ++ (trimS s.current_person_img) ++ (trimS s.current_person_href) }
      (s, (write_nfitem_persons cfg s).toList)
    else (s, [])
  else (s, [])

/-- `tags::podcast_value::on_start`. -/
def podcast_value_on_start (v_type method suggested : String) (s : ParserState) : ParserState :=
  if !(s.in_channel || s.in_item) then s
  else
    { s with
      in_podcast_value := true, value_recipients := [],
      value_model_type := v_type, value_model_method := method,
      value_model_suggested := suggested }

/-- `tags::podcast_value::on_value_recipient`. -/
def podcast_value_on_value_recipient (attrs : List (String × String))
    (s : ParserState) : ParserState :=
  if !s.in_podcast_value then s
  else if s.value_recipients.length ≥ 100 then s
  else { s with value_recipients := s.value_recipients ++ [recipientFromAttrs attrs] }

/-- `tags::podcast_value::on_end`. -/
def podcast_value_on_end (s : ParserState) : ParserState :=
  let s :=
    if s.in_podcast_value && !s.value_recipients.isEmpty then
      match build_value_block s with
      | some block =>
        let type_code := map_value_type s.value_model_type
        if s.in_item && s.item_has_valid_enclosure then
          if !s.item_value_has_lightning || type_code == 0 || s.item_value_pending.isNone then
            { s with
              item_value_pending := some (type_code, block),
              item_value_has_lightning :=
                if type_code == 0 then true else s.item_value_has_lightning }
          else s
        else if s.in_channel then
          if !s.channel_value_has_lightning || type_code == 0
              || s.channel_value_pending.isNone then
            { s with
              channel_value_pending := some (type_code, block),
              channel_value_has_lightning :=
                if type_code == 0 then true else s.channel_value_has_lightning }
          else s
        else s
      | none => s
    else s
  { s with
    in_podcast_value := false, value_recipients := [], value_model_type := "",
    value_model_method := "", value_model_suggested := "" }

/-! ## The event alphabet and the dispatch step (`tags/mod.rs` plus the
parse loop in `main.rs`) -/

/-- One canonicalized parser event, as routed by `tags::dispatch_start`,
`tags::dispatch_text` and `tags::dispatch_end`.  Constructors carry the
attribute values the corresponding handler extracts. -/
inductive Ev where
  | channelStart
  | channelEnd
  | itemStart
  | itemEnd
  | enclosureStart (url length enc_type : String)
  | atomLink (rel href length link_type : String)
  | linkStart (href : Option String)
  | linkText (t : String)
  | titleText (t : String)
  | itunesTitleText (t : String)
  | guidText (t : String)
  | pubDateText (t : String)
  | itunesDurationStart
  | itunesDurationText (t : String)
  | itunesEpisodeText (t : String)
  | itunesSeasonText (t : String)
  | itunesImageStart (href : Option String)
  | fundingStart (url : Option String)
  | fundingText (t : String)
  | fundingEnd
  | transcriptStart (url t_type : String)
  | transcriptEnd
  | chaptersStart (url c_type : String)
  | chaptersEnd
  | soundbiteStart (startTime duration : String)
  | soundbiteText (t : String)
  | soundbiteEnd
  | personStart (role grp img href : String)
  | personText (t : String)
  | personEnd
  | valueStart (v_type method suggested : String)
  | valueRecipientStart (attrs : List (String × String))
  | valueEnd
  | altEncStart
  | altEncEnd
  | categoryStart (textAttr : Option String)
  | categoryText (t : String)
  | categoryEnd

/-- The dispatch of one event (`tags::dispatch_start` / `dispatch_text` /
`dispatch_end`): the successor state and the records emitted by this
event. -/
def step (cfg : Cfg) (e : Ev) (s : ParserState) : ParserState × List Rec :=
  match e with
  | Ev.channelStart => (channel_on_start s, [])
  | Ev.channelEnd => channel_on_end cfg s
  | Ev.itemStart => (item_on_start s, [])
  | Ev.itemEnd => item_on_end cfg s
  | Ev.enclosureStart url length enc_type => (enclosure_on_start url length enc_type s, [])
  | Ev.atomLink rel href length link_type => (atom_link_on_start rel href length link_type s, [])
  | Ev.linkStart href => (link_on_start href s, [])
  | Ev.linkText t => (link_on_text t s, [])
  | Ev.titleText t => (title_on_text t s, [])
  | Ev.itunesTitleText t => (itunes_title_on_text t s, [])
  | Ev.guidText t => (guid_on_text t s, [])
  | Ev.pubDateText t => (pub_date_on_text t s, [])
  | Ev.itunesDurationStart => (itunes_duration_on_start s, [])
  | Ev.itunesDurationText t => (itunes_duration_on_text t s, [])
  | Ev.itunesEpisodeText t => (itunes_episode_on_text t s, [])
  | Ev.itunesSeasonText t => (itunes_season_on_text t s, [])
  | Ev.itunesImageStart href => (itunes_image_on_start href s, [])
  | Ev.fundingStart url => (podcast_funding_on_start url s, [])
  | Ev.fundingText t => (podcast_funding_on_text t s, [])
  | Ev.fundingEnd => (podcast_funding_on_end s, [])
  | Ev.transcriptStart url t_type => (podcast_transcript_on_start url t_type s, [])
  | Ev.transcriptEnd => podcast_transcript_on_end cfg s
  | Ev.chaptersStart url c_type => (podcast_chapters_on_start url c_type s, [])
  | Ev.chaptersEnd => podcast_chapters_on_end cfg s
  | Ev.soundbiteStart startTime duration => (podcast_soundbite_on_start startTime duration s, [])
  | Ev.soundbiteText t => (podcast_soundbite_on_text t s, [])
  | Ev.soundbiteEnd => podcast_soundbite_on_end cfg s
  | Ev.personStart role grp img href => (podcast_person_on_start role grp img href s, [])
  | Ev.personText t => (podcast_person_on_text t s, [])
  | Ev.personEnd => podcast_person_on_end cfg s
  | Ev.valueStart v_type method suggested => (podcast_value_on_start v_type method suggested s, [])
  | Ev.valueRecipientStart attrs => (podcast_value_on_value_recipient attrs s, [])
  | Ev.valueEnd => (podcast_value_on_end s, [])
  | Ev.altEncStart =>
    (if s.in_item then { s with in_podcast_alternate_enclosure := true } else s, [])
  | Ev.altEncEnd => ({ s with in_podcast_alternate_enclosure := false }, [])
  | Ev.categoryStart textAttr => (category_on_start textAttr s, [])
  | Ev.categoryText t => (category_on_text t s, [])
  | Ev.categoryEnd => (category_on_end s, [])

/-- Run the machine over an event list, collecting emitted records in
order. -/
def run (cfg : Cfg) : List Ev → ParserState → ParserState × List Rec
  | [], s => (s, [])
  | e :: es, s =>
    let p := step cfg e s
    let q := run cfg es p.1
    (q.1, p.2 ++ q.2)

/-! ## Definitions used to state the claims -/

/-- The four item metrics the discard claim protects: item count, pubdate
list, newest/oldest pubdate, and the running item content-hash stream. -/
def metricsOf (s : ParserState) : Int × List Int × Option Int × Option Int × String :=
  (s.item_count, s.item_pubdates, s.newest_item_pubdate, s.oldest_item_pubdate, s.item_hash)

/-- Events that may occur strictly inside one item scope (everything but
the channel/item boundary events). -/
def midEvent : Ev → Bool
  | Ev.channelStart => false
  | Ev.channelEnd => false
  | Ev.itemStart => false
  | Ev.itemEnd => false
  | _ => true

/-- The exact bytes one event folds into the running item content-hash
stream, computed from the pre-event state: the six-field tuple at a valid
item end (with the enclosure type already resolved through
`guess_enclosure_type`), the child-entity fields at a child scope end
inside a valid-enclosure item, and nothing for every other event. -/
def hashContribution (e : Ev) (s : ParserState) : String :=
  match e with
  | Ev.itemEnd =>
    if s.in_item && s.item_has_valid_enclosure then
      let resolvedType :=
        if isEmptyS (trimS s.enclosure_type) then guess_enclosure_type s.enclosure_url
        else s.enclosure_type
      hashTitleOf s ++ (trimS s.link) ++ (trimS s.enclosure_url) ++ (trimS resolvedType)
        ++ (trimS s.podcast_funding_url) ++ (trimS s.podcast_funding_text)
    else ""
  | Ev.transcriptEnd =>
    if s.in_podcast_transcript && s.item_has_valid_enclosure then
      (trimS s.current_transcript_url) ++ (trimS s.current_transcript_type)
    else ""
  | Ev.chaptersEnd =>
    if s.in_podcast_chapters && s.item_has_valid_enclosure then
      (trimS s.current_chapter_url) ++ (trimS s.current_chapter_type)
    else ""
  | Ev.soundbiteEnd =>
    if s.in_podcast_soundbite && s.item_has_valid_enclosure then
      (trimS s.current_soundbite_title) ++ (trimS s.current_soundbite_start)
        ++ (trimS s.current_soundbite_duration)
    else ""
  | Ev.personEnd =>
    if s.in_podcast_person && s.item_has_valid_enclosure then
      (trimS s.current_person_name) ++ (trimS s.current_person_role)
        ++ (trimS s.current_person_group) ++ (trimS s.current_person_img)
        ++ (trimS s.current_person_href)
    else ""
  | _ => ""

/-- The item content-hash stream after one event: reset at channel start,
otherwise the previous stream extended by `hashContribution`. -/
def expectedHashAfter (e : Ev) (s : ParserState) : String :=
  match e with
  | Ev.channelStart => ""
  | _ => s.item_hash ++ hashContribution e s

/-- The pending-block acceptance rule of `podcast_value::on_end`, shared
verbatim by the item and channel branches: `(pending, hasLightning)`
before the block and the block's mapped type code decide whether the new
block replaces the pending one. -/
def value_accept (pending : Option (Int × String)) (hasL : Bool) (tc : Int)
    (block : String) : Option (Int × String) × Bool :=
  if !hasL || tc == 0 || pending.isNone then
    (some (tc, block), if tc == 0 then true else hasL)
  else (pending, hasL)

/-- The block selected for one scope after folding `value_accept` over the
blocks (paired with their mapped type codes) that reach the scope's
selection, starting from no pending block. -/
def select_value_blocks (bs : List (Int × String)) : Option (Int × String) :=
  (bs.foldl (fun acc b => value_accept acc.1 acc.2 b.1 b.2) (none, false)).1

/-- The value of the last `fee` attribute in an attribute list, if any. -/
def lastFeeSpec : List (String × String) → Option String
  | [] => none
  | kv :: rest =>
    match lastFeeSpec rest with
    | some v => some v
    | none => if kv.1 = "fee" then some kv.2 else none

/-- Entry list of a JSON object (empty for non-objects). -/
def objEntries : Json → List (String × Json)
  | Json.obj l => l
  | _ => []

/-- Number of items whose pubdate falls within `days` days of `now`
(the claim's "items falling within N days of now"). -/
def countWithinDays (now : Int) (pubdates : List Int) (days : Int) : Nat :=
  (pubdates.filter (fun t => now - t < days * 86400)).length

/-- The update-frequency classification exactly as the specification words
it: 9/8/7 when no item falls within 400/200/100 days; otherwise the first
of classes 1..6 (tightest window first) whose 5/10/20/40/100/200-day
window holds more than one item; else 7 when at least one item falls
within 400 days; else 0. -/
def update_frequency_spec (now : Int) (pds : List Int) : Int :=
  if countWithinDays now pds 400 = 0 then 9
  else if countWithinDays now pds 200 = 0 then 8
  else if countWithinDays now pds 100 = 0 then 7
  else if countWithinDays now pds 5 > 1 then 1
  else if countWithinDays now pds 10 > 1 then 2
  else if countWithinDays now pds 20 > 1 then 3
  else if countWithinDays now pds 40 > 1 then 4
  else if countWithinDays now pds 100 > 1 then 5
  else if countWithinDays now pds 200 > 1 then 6
  else if countWithinDays now pds 400 ≥ 1 then 7
  else 0

/-- The taxonomy index a raw category token resolves to, if any: the first
`CATEGORY_LOOKUP` position of the space/hyphen-stripped token, skipped
when it is the zero sentinel. -/
def resolvedCategoryIdx (name : String) : Option Nat :=
  match CATEGORY_LOOKUP.findIdx? (fun v => v = stripSpacesHyphens name) with
  | some idx => if idx > 0 then some idx else none
  | none => none

/-- Fill the slot vector with successive matches starting after slot
`seen`, one slot per match, in order. -/
def applyMatches : List Int → Nat → List Nat → List Int
  | ids, _, [] => ids
  | ids, seen, m :: ms => applyMatches (ids.set (seen + 1) (m : Int)) (seen + 1) ms

/-- The trimmed, lowercased, non-empty category tokens before compound
synthesis (the first `let` of `build_category_ids`). -/
def normalizedCategoryTokens (raw : List String) : List String :=
  (raw.map (fun s => toAsciiLower (trimS s))).filter (fun s => !isEmptyS s)

/-- The guid and enclosure-type fallbacks applied by `item::on_end` just
before writing the `nfitems` record: an empty trimmed guid becomes the
enclosure URL, an empty trimmed enclosure type becomes the guessed type. -/
def resolveItemForOutput (s : ParserState) : ParserState :=
  let s := if isEmptyS (trimS s.guid) then { s with guid := s.enclosure_url } else s
  if isEmptyS (trimS s.enclosure_type) then
    { s with enclosure_type := guess_enclosure_type s.enclosure_url }
  else s

/-! ### Concrete scenarios used by individual claims -/

/-- An item scope with no structurally valid enclosure: a non-`http(s)`
enclosure URL, plus a transcript and a soundbite inside the item. -/
def c1mid : List Ev :=
  [Ev.enclosureStart "ftp://host/x.mp3" "1" "audio/mpeg",
   Ev.transcriptStart "https://x/t.vtt" "text/vtt", Ev.transcriptEnd,
   Ev.soundbiteStart "1" "2", Ev.soundbiteText "clip", Ev.soundbiteEnd]

/-- A channel with one valid item carrying a transcript: the transcript
bytes reach the running hash before the item's six-field tuple. -/
def c2evs : List Ev :=
  [Ev.channelStart, Ev.itemStart,
   Ev.enclosureStart "http://a" "" "",
   Ev.transcriptStart "t" "ty", Ev.transcriptEnd,
   Ev.itemEnd, Ev.channelEnd]

/-- The same scenario stopped just before the item end. -/
def c2evsBeforeItemEnd : List Ev :=
  [Ev.channelStart, Ev.itemStart,
   Ev.enclosureStart "http://a" "" "",
   Ev.transcriptStart "t" "ty", Ev.transcriptEnd]

/-- A channel with two lightning-typed value blocks: Alice's first, then
Bob's. -/
def c3evs : List Ev :=
  [Ev.channelStart,
   Ev.valueStart "lightning" "keysend" "",
   Ev.valueRecipientStart
     [("name", "Alice"), ("type", "node"), ("address", "addrA"), ("split", "100")],
   Ev.valueEnd,
   Ev.valueStart "lightning" "keysend" "",
   Ev.valueRecipientStart
     [("name", "Bob"), ("type", "node"), ("address", "addrB"), ("split", "100")],
   Ev.valueEnd,
   Ev.channelEnd]

/-- The value block built from Alice's recipient (the first lightning
block of `c3evs`). -/
def c3AliceJson : Json :=
  Json.obj
    [("model", Json.obj [("type", Json.str "lightning"), ("method", Json.str "keysend")]),
     ("destinations", Json.arr [destinationJson
       (recipientFromAttrs
         [("name", "Alice"), ("type", "node"), ("address", "addrA"), ("split", "100")])])]

/-- The value block built from Bob's recipient (the second lightning block
of `c3evs`). -/
def c3BobJson : Json :=
  Json.obj
    [("model", Json.obj [("type", Json.str "lightning"), ("method", Json.str "keysend")]),
     ("destinations", Json.arr [destinationJson
       (recipientFromAttrs
         [("name", "Bob"), ("type", "node"), ("address", "addrB"), ("split", "100")])])]

/-- A channel-scope value block about to close: bitcoin-typed model with
one (default) recipient. -/
def c3ChanState : ParserState :=
  { initState with
    in_channel := true, in_podcast_value := true,
    value_model_type := "bitcoin", value_model_method := "keysend",
    value_recipients := [{}] }

/-- An item state whose enclosure has an `.mp4` URL and no explicit type,
about to be finalized. -/
def c7state : ParserState :=
  { initState with
    in_item := true, item_has_valid_enclosure := true,
    enclosure_url := "https://example.com/ep.mp4", enclosure_type := "", guid := "g" }

/-- An item state (taken from the repository's own clamp test feed) whose
enclosure length `"9999999999999999999"` exceeds the `i64` range, with a
non-numeric episode and a numeric season. -/
def c8state : ParserState :=
  { initState with
    in_item := true, item_has_valid_enclosure := true,
    enclosure_url := "https://example.com/audio.mp3", enclosure_type := "audio/mpeg",
    enclosure_length := "9999999999999999999", itunes_episode := "abc",
    itunes_season := " 7 ", guid := "g" }

/-- The repository's own `test_alternate_enclosures` feed, as events: the
primary item has duration 83 and one chapters/transcript pair; the
`podcast:alternateEnclosure` nested inside it carries duration 3269 and
its own chapters/transcript pair. -/
def c10evs : List Ev :=
  [Ev.channelStart, Ev.itemStart,
   Ev.enclosureStart "https://example.com/ep.mp3" "2397614" "audio/mpeg",
   Ev.itunesDurationStart, Ev.itunesDurationText "83",
   Ev.chaptersStart "https://example.com/main.json" "application/json+chapters",
   Ev.chaptersEnd,
   Ev.transcriptStart "https://example.com/main.srt" "application/x-subrip",
   Ev.transcriptEnd,
   Ev.altEncStart,
   Ev.itunesDurationStart, Ev.itunesDurationText "3269",
   Ev.chaptersStart "https://example.com/paid.json" "application/json+chapters",
   Ev.chaptersEnd,
   Ev.transcriptStart "https://example.com/paid.srt" "application/x-subrip",
   Ev.transcriptEnd,
   Ev.altEncEnd,
   Ev.guidText "guid-1", Ev.titleText "Bonus 01",
   Ev.itemEnd, Ev.channelEnd]

end FeedParser

namespace FeedParser

/-! ## Supporting lemmas: the canonical-JSON key order -/

theorem char_toNat_inj {a b : Char} (h : a.toNat = b.toNat) : a = b := by
  have hv : a.val.toNat = b.val.toNat := h
  exact Char.eq_of_val_eq (UInt32.toNat.inj hv)

theorem charListLeB_total : ∀ as bs, charListLeB as bs = true ∨ charListLeB bs as = true := by
  intro as
  induction as with
  | nil => intro bs; left; rfl
  | cons a as ih =>
    intro bs
    cases bs with
    | nil => right; rfl
    | cons b bs =>
      by_cases hab : a = b
      · subst hab
        simpa [charListLeB] using ih bs
      · have hn : a.toNat ≠ b.toNat := fun h => hab (char_toNat_inj h)
        simp only [charListLeB, if_neg hab, if_neg (Ne.symm hab), decide_eq_true_eq]
        omega

theorem charListLeB_trans :
    ∀ as bs cs, charListLeB as bs = true → charListLeB bs cs = true →
      charListLeB as cs = true := by
  intro as
  induction as with
  | nil => intro bs cs _ _; rfl
  | cons a as ih =>
    intro bs cs h1 h2
    cases bs with
    | nil => simp [charListLeB] at h1
    | cons b bs =>
      cases cs with
      | nil => simp [charListLeB] at h2
      | cons c cs =>
        by_cases hab : a = b
        · subst hab
          by_cases hbc : a = c
          · subst hbc
            simp only [charListLeB, if_pos rfl] at h1 h2 ⊢
            exact ih bs cs h1 h2
          · simp only [charListLeB, if_pos rfl] at h1
            simp only [charListLeB, if_neg hbc] at h2 ⊢
            exact h2
        · by_cases hbc : b = c
          · subst hbc
            simp only [charListLeB, if_neg hab] at h1 ⊢
            exact h1
          · have h1' : a.toNat < b.toNat := by
              simpa [charListLeB, if_neg hab] using h1
            have h2' : b.toNat < c.toNat := by
              simpa [charListLeB, if_neg hbc] using h2
            have hac : a ≠ c := by
              intro h
              subst h
              have : a.toNat ≠ a.toNat := by omega
              exact this rfl
            simp only [charListLeB, if_neg hac, decide_eq_true_eq]
            omega

theorem charListLeB_antisymm :
    ∀ as bs, charListLeB as bs = true → charListLeB bs as = true → as = bs := by
  intro as
  induction as with
  | nil =>
    intro bs h1 h2
    cases bs with
    | nil => rfl
    | cons b bs => simp [charListLeB] at h2
  | cons a as ih =>
    intro bs h1 h2
    cases bs with
    | nil => simp [charListLeB] at h1
    | cons b bs =>
      by_cases hab : a = b
      · subst hab
        simp only [charListLeB, if_pos rfl] at h1 h2
        rw [ih bs h1 h2]
      · have h1' : a.toNat < b.toNat := by
          simpa [charListLeB, if_neg hab] using h1
        have h2' : b.toNat < a.toNat := by
          simpa [charListLeB, if_neg (Ne.symm hab)] using h2
        omega

theorem strLeB_total (a b : String) : strLeB a b = true ∨ strLeB b a = true :=
  charListLeB_total a.toList b.toList

theorem strLeB_trans {a b c : String} (h1 : strLeB a b = true) (h2 : strLeB b c = true) :
    strLeB a c = true :=
  charListLeB_trans a.toList b.toList c.toList h1 h2

theorem strLeB_antisymm {a b : String} (h1 : strLeB a b = true) (h2 : strLeB b a = true) :
    a = b := by
  have h3 : a.toList = b.toList := charListLeB_antisymm a.toList b.toList h1 h2
  cases a with
  | mk da =>
    cases b with
    | mk db => exact congrArg String.mk h3

instance : IsTotal (String × Json) keyLE := ⟨fun a b => strLeB_total a.1 b.1⟩

instance : IsTrans (String × Json) keyLE := ⟨fun _ _ _ h h' => strLeB_trans h h'⟩

/-! ## Supporting lemmas: canonicalization -/

theorem keysChain_of_sorted :
    ∀ {l : List (String × Json)}, List.Sorted keyLE l → keysChain l = true := by
  intro l h
  induction l with
  | nil => rfl
  | cons a l ih =>
    cases l with
    | nil => rfl
    | cons b l =>
      rw [List.sorted_cons] at h
      have hab : keyLE a b := h.1 b (List.mem_cons_self b l)
      simp only [keysChain, Bool.and_eq_true]
      exact ⟨hab, ih h.2⟩

theorem sortedObjVals_of_forall :
    ∀ {l : List (String × Json)},
      (∀ p ∈ l, sortedKeysAtEveryLevel p.2 = true) → sortedObjVals l = true := by
  intro l h
  induction l with
  | nil => rfl
  | cons a l ih =>
    simp only [sortedObjVals, Bool.and_eq_true]
    exact ⟨h a (List.mem_cons_self a l), ih (fun p hp => h p (List.mem_cons_of_mem a hp))⟩

theorem canonObj_eq_map :
    ∀ l, canonObj l = l.map (fun p => (p.1, canonicalize_json p.2)) := by
  intro l
  induction l with
  | nil => rfl
  | cons a l ih => simp [canonObj, ih]

mutual

theorem canonicalize_sorted :
    (j : Json) → sortedKeysAtEveryLevel (canonicalize_json j) = true
  | Json.null => rfl
  | Json.bool _ => rfl
  | Json.int _ => rfl
  | Json.str _ => rfl
  | Json.arr xs => by
    simp only [canonicalize_json, sortedKeysAtEveryLevel]
    exact canonArr_sorted xs
  | Json.obj l => by
    simp only [canonicalize_json, sortedKeysAtEveryLevel, Bool.and_eq_true]
    refine ⟨keysChain_of_sorted (List.sorted_insertionSort keyLE (canonObj l)), ?_⟩
    apply sortedObjVals_of_forall
    intro p hp
    exact canonObj_vals_sorted l p (((List.perm_insertionSort keyLE (canonObj l))).mem_iff.mp hp)

theorem canonArr_sorted : (xs : List Json) → sortedArrVals (canonArr xs) = true
  | [] => rfl
  | x :: xs => by
    simp only [canonArr, sortedArrVals, Bool.and_eq_true]
    exact ⟨canonicalize_sorted x, canonArr_sorted xs⟩

theorem canonObj_vals_sorted :
    (l : List (String × Json)) → ∀ p ∈ canonObj l, sortedKeysAtEveryLevel p.2 = true
  | [] => by intro p hp; simp [canonObj] at hp
  | (k, v) :: rest => by
    intro p hp
    simp only [canonObj, List.mem_cons] at hp
    rcases hp with h | h
    · rw [h]
      exact canonicalize_sorted v
    · exact canonObj_vals_sorted rest p h

end

theorem sorted_perm_nodup_eq :
    ∀ (xs ys : List (String × Json)), xs.Perm ys → List.Sorted keyLE xs →
      List.Sorted keyLE ys → (xs.map Prod.fst).Nodup → xs = ys := by
  intro xs
  induction xs with
  | nil =>
    intro ys hp _ _ _
    exact (hp.symm.eq_nil).symm ▸ rfl
  | cons x xs ih =>
    intro ys hp hsx hsy hnd
    cases ys with
    | nil => exact absurd hp.eq_nil (by simp)
    | cons y ys =>
      have hx : x = y := by
        by_contra hxy
        have hxm : x ∈ y :: ys := hp.mem_iff.mp (List.mem_cons_self x xs)
        have hym : y ∈ x :: xs := hp.symm.mem_iff.mp (List.mem_cons_self y ys)
        have hx' : x ∈ ys := by
          rcases List.mem_cons.mp hxm with h | h
          · exact absurd h hxy
          · exact h
        have hy' : y ∈ xs := by
          rcases List.mem_cons.mp hym with h | h
          · exact absurd h.symm hxy
          · exact h
        rw [List.sorted_cons] at hsx hsy
        have h1 : keyLE x y := hsx.1 y hy'
        have h2 : keyLE y x := hsy.1 x hx'
        have hkeys : x.1 = y.1 := strLeB_antisymm h1 h2
        rw [List.map_cons, List.nodup_cons] at hnd
        have : y.1 ∈ xs.map Prod.fst := List.mem_map_of_mem Prod.fst hy'
        exact hnd.1 (hkeys ▸ this)
      subst hx
      have hp' := hp.cons_inv
      rw [List.sorted_cons] at hsx hsy
      rw [List.map_cons, List.nodup_cons] at hnd
      rw [ih ys hp' hsx.2 hsy.2 hnd.2]

theorem canonicalize_obj_perm (l l' : List (String × Json)) (hp : l.Perm l')
    (hnd : (l.map Prod.fst).Nodup) :
    canonicalize_json (Json.obj l) = canonicalize_json (Json.obj l') := by
  simp only [canonicalize_json]
  congr 1
  have hmap : (canonObj l).Perm (canonObj l') := by
    rw [canonObj_eq_map, canonObj_eq_map]
    exact hp.map _
  have hperm : (List.insertionSort keyLE (canonObj l)).Perm
      (List.insertionSort keyLE (canonObj l')) :=
    ((List.perm_insertionSort keyLE (canonObj l)).trans hmap).trans
      (List.perm_insertionSort keyLE (canonObj l')).symm
  have hkeys : ((List.insertionSort keyLE (canonObj l)).map Prod.fst).Perm
      (l.map Prod.fst) := by
    have h1 : ((List.insertionSort keyLE (canonObj l)).map Prod.fst).Perm
        ((canonObj l).map Prod.fst) :=
      (List.perm_insertionSort keyLE (canonObj l)).map _
    have h2 : (canonObj l).map Prod.fst = l.map Prod.fst := by
      rw [canonObj_eq_map, List.map_map]
      rfl
    rw [h2] at h1
    exact h1
  exact sorted_perm_nodup_eq _ _ hperm
    (List.sorted_insertionSort keyLE (canonObj l))
    (List.sorted_insertionSort keyLE (canonObj l'))
    (hkeys.nodup_iff.mpr hnd)

theorem canonical_json_string_obj_perm (l l' : List (String × Json)) (hp : l.Perm l')
    (hnd : (l.map Prod.fst).Nodup) :
    canonical_json_string (Json.obj l) = canonical_json_string (Json.obj l') := by
  unfold canonical_json_string
  rw [canonicalize_obj_perm l l' hp hnd]

end FeedParser

namespace FeedParser

/-! ## Supporting lemmas: value-block selection -/

theorem select_step_fun :
    (fun (acc : Option (Int × String) × Bool) (b : Int × String) =>
      value_accept acc.1 acc.2 b.1 b.2) = fun acc b => value_accept acc.1 acc.2 b.1 b.2 := rfl

theorem getLast?_cons_ne_none {α : Type} (a : α) (l : List α) :
    (a :: l).getLast? ≠ none := by
  induction l generalizing a with
  | nil => simp
  | cons b l ih => simpa [List.getLast?_cons_cons] using ih b

theorem select_aux_lightning :
    ∀ (bs : List (Int × String)) (q : Int × String),
      (bs.foldl (fun acc b => value_accept acc.1 acc.2 b.1 b.2) (some q, true)).1
        = match bs.reverse.find? (fun b => b.1 == 0) with
          | some b => some b
          | none => some q := by
  intro bs
  induction bs with
  | nil => intro q; rfl
  | cons b rest ih =>
    intro q
    obtain ⟨b1, b2⟩ := b
    rw [List.foldl_cons]
    by_cases hb : b1 = 0
    · have hstep : value_accept (some q) true (b1, b2).1 (b1, b2).2 = (some (b1, b2), true) := by
        simp [value_accept, hb]
      rw [hstep, ih (b1, b2)]
      cases hf : rest.reverse.find? (fun b => b.1 == 0) <;>
        simp [List.reverse_cons, List.find?_append, hf, hb]
    · have hstep : value_accept (some q) true (b1, b2).1 (b1, b2).2 = (some q, true) := by
        simp [value_accept, hb]
      rw [hstep, ih q]
      cases hf : rest.reverse.find? (fun b => b.1 == 0) <;>
        simp [List.reverse_cons, List.find?_append, hf, hb]

theorem select_aux_nolightning :
    ∀ (bs : List (Int × String)) (q : Int × String),
      (bs.foldl (fun acc b => value_accept acc.1 acc.2 b.1 b.2) (some q, false)).1
        = match bs.reverse.find? (fun b => b.1 == 0) with
          | some b => some b
          | none => match bs.getLast? with
            | some c => some c
            | none => some q := by
  intro bs
  induction bs with
  | nil => intro q; rfl
  | cons b rest ih =>
    intro q
    obtain ⟨b1, b2⟩ := b
    rw [List.foldl_cons]
    by_cases hb : b1 = 0
    · have hstep : value_accept (some q) false (b1, b2).1 (b1, b2).2 = (some (b1, b2), true) := by
        simp [value_accept, hb]
      rw [hstep, select_aux_lightning rest (b1, b2)]
      cases hf : rest.reverse.find? (fun b => b.1 == 0) <;>
        simp [List.reverse_cons, List.find?_append, hf, hb]
    · have hstep : value_accept (some q) false (b1, b2).1 (b1, b2).2 = (some (b1, b2), false) := by
        simp [value_accept, hb]
      rw [hstep, ih (b1, b2)]
      cases hf : rest.reverse.find? (fun b => b.1 == 0) with
      | none =>
        cases hrest : rest with
        | nil =>
          subst hrest
          simp [List.reverse_cons, List.find?_append, hf, hb]
        | cons c cs =>
          subst hrest
          cases hg : (c :: cs).getLast? with
          | none => exact absurd hg (getLast?_cons_ne_none c cs)
          | some d =>
            have hnone : List.find? (fun b => b.1 == 0) ((b1, b2) :: c :: cs).reverse
                = none := by
              rw [List.reverse_cons, List.find?_append, hf]
              simp [hb]
            rw [hnone]
            simp [List.getLast?_cons_cons, hg]
      | some c =>
        simp [List.reverse_cons, List.find?_append, hf, hb]

theorem select_value_blocks_spec :
    ∀ bs, select_value_blocks bs
      = match bs.reverse.find? (fun b => b.1 == 0) with
        | some b => some b
        | none => bs.getLast? := by
  intro bs
  cases bs with
  | nil => rfl
  | cons b rest =>
    unfold select_value_blocks
    obtain ⟨b1, b2⟩ := b
    rw [List.foldl_cons]
    by_cases hb : b1 = 0
    · have hstep : value_accept (none : Option (Int × String)) false (b1, b2).1 (b1, b2).2
          = (some (b1, b2), true) := by
        simp [value_accept, hb]
      rw [hstep, select_aux_lightning rest (b1, b2)]
      cases hf : rest.reverse.find? (fun b => b.1 == 0) <;>
        simp [List.reverse_cons, List.find?_append, hf, hb]
    · have hstep : value_accept (none : Option (Int × String)) false (b1, b2).1 (b1, b2).2
          = (some (b1, b2), false) := by
        simp [value_accept, hb]
      rw [hstep, select_aux_nolightning rest (b1, b2)]
      cases hf : rest.reverse.find? (fun b => b.1 == 0) with
      | none =>
        cases hrest : rest with
        | nil =>
          subst hrest
          simp [List.reverse_cons, List.find?_append, hf, hb]
        | cons c cs =>
          subst hrest
          cases hg : (c :: cs).getLast? with
          | none => exact absurd hg (getLast?_cons_ne_none c cs)
          | some d =>
            have hnone : List.find? (fun b => b.1 == 0) ((b1, b2) :: c :: cs).reverse
                = none := by
              rw [List.reverse_cons, List.find?_append, hf]
              simp [hb]
            rw [hnone]
            simp [List.getLast?_cons_cons, hg]
      | some c =>
        simp [List.reverse_cons, List.find?_append, hf, hb]

end FeedParser

namespace FeedParser

/-! ## Supporting lemmas: the `podcast_value` handler and recipients -/

theorem podcast_value_on_end_channel_accept (s : ParserState)
    (h1 : s.in_podcast_value = true) (h2 : s.value_recipients ≠ [])
    (h3 : s.in_item = false) (h4 : s.in_channel = true) :
    ((podcast_value_on_end s).channel_value_pending,
      (podcast_value_on_end s).channel_value_has_lightning)
      = value_accept s.channel_value_pending s.channel_value_has_lightning
          (map_value_type s.value_model_type) ((build_value_block s).getD "") := by
  have hne : s.value_recipients.isEmpty = false := by
    cases hv : s.value_recipients with
    | nil => exact absurd hv h2
    | cons a l => rfl
  have hblk : build_value_block s
      = some (canonical_json_string (Json.obj
          [("model", Json.obj (modelEntries s)),
           ("destinations",
             Json.arr ((s.value_recipients.take 100).map destinationJson))])) := by
    simp [build_value_block, build_value_block_json, hne]
  simp only [podcast_value_on_end, h1, hne, h3, h4, hblk, Bool.not_false, Bool.and_true,
    Bool.true_and, Bool.false_and, Bool.false_eq_true, if_false, if_true, Option.getD_some]
  unfold value_accept
  split
  · rfl
  · rfl

theorem podcast_value_on_end_item_accept (s : ParserState)
    (h1 : s.in_podcast_value = true) (h2 : s.value_recipients ≠ [])
    (h3 : s.in_item = true) (h4 : s.item_has_valid_enclosure = true) :
    ((podcast_value_on_end s).item_value_pending,
      (podcast_value_on_end s).item_value_has_lightning)
      = value_accept s.item_value_pending s.item_value_has_lightning
          (map_value_type s.value_model_type) ((build_value_block s).getD "") := by
  have hne : s.value_recipients.isEmpty = false := by
    cases hv : s.value_recipients with
    | nil => exact absurd hv h2
    | cons a l => rfl
  have hblk : build_value_block s
      = some (canonical_json_string (Json.obj
          [("model", Json.obj (modelEntries s)),
           ("destinations",
             Json.arr ((s.value_recipients.take 100).map destinationJson))])) := by
    simp [build_value_block, build_value_block_json, hne]
  simp only [podcast_value_on_end, h1, hne, h3, h4, hblk, Bool.not_false, Bool.and_true,
    Bool.true_and, Bool.and_self, Bool.false_eq_true, if_false, if_true, Option.getD_some]
  unfold value_accept
  split
  · rfl
  · rfl

theorem recipientAttrStep_fee_of_ne (vr : ValueRecipient) (kv : String × String)
    (hk : kv.1 ≠ "fee") : (recipientAttrStep vr kv).fee = vr.fee := by
  unfold recipientAttrStep
  repeat' split
  all_goals simp_all

theorem foldl_recipientAttrStep_fee :
    ∀ (attrs : List (String × String)) (vr : ValueRecipient),
      (attrs.foldl recipientAttrStep vr).fee
        = match lastFeeSpec attrs with
          | some v => feeAttrTrue v
          | none => vr.fee := by
  intro attrs
  induction attrs with
  | nil => intro vr; rfl
  | cons kv rest ih =>
    intro vr
    rw [List.foldl_cons, ih (recipientAttrStep vr kv)]
    cases hl : lastFeeSpec rest with
    | some v => simp [lastFeeSpec, hl]
    | none =>
      simp only [lastFeeSpec, hl]
      by_cases hk : kv.1 = "fee"
      · simp only [recipientAttrStep, hk, if_pos rfl, if_neg, if_pos]
        simp [hk]
      · rw [recipientAttrStep_fee_of_ne vr kv hk]
        simp [hk]

theorem destinationJson_fee_lookup (r : ValueRecipient) :
    (objEntries (destinationJson r)).lookup "fee"
      = if r.fee then some (Json.bool true) else none := by
  obtain ⟨n, t, a, sp, fee, ck, cv⟩ := r
  cases fee <;> cases ck <;> cases cv <;>
    simp [destinationJson, objEntries, List.lookup]

theorem podcast_value_on_value_recipient_length (attrs : List (String × String))
    (s : ParserState) (h1 : s.in_podcast_value = true)
    (h2 : s.value_recipients.length ≤ 100) :
    ((podcast_value_on_value_recipient attrs s).value_recipients).length
      = min (s.value_recipients.length + 1) 100 := by
  unfold podcast_value_on_value_recipient
  by_cases hc : s.value_recipients.length ≥ 100
  · have h100 : s.value_recipients.length = 100 := le_antisymm h2 hc
    simp [h1, hc, h100]
  · have hlt : s.value_recipients.length < 100 := Nat.lt_of_not_le hc
    simp [h1, hc]
    omega

theorem foldl_recipients_length (attrs : List (String × String)) :
    ∀ (n : Nat) (s : ParserState), s.in_podcast_value = true →
      s.value_recipients.length ≤ 100 →
      (((List.replicate n attrs).foldl
          (fun st a => podcast_value_on_value_recipient a st) s).value_recipients).length
        = min (s.value_recipients.length + n) 100 := by
  intro n
  induction n with
  | zero =>
    intro s h1 h2
    simp only [List.replicate_zero, List.foldl_nil, Nat.add_zero]
    omega
  | succ n ih =>
    intro s h1 h2
    rw [List.replicate_succ, List.foldl_cons]
    have hflag : (podcast_value_on_value_recipient attrs s).in_podcast_value = true := by
      unfold podcast_value_on_value_recipient
      split
      · exact h1
      · split
        · exact h1
        · exact h1
    have hlen := podcast_value_on_value_recipient_length attrs s h1 h2
    rw [ih (podcast_value_on_value_recipient attrs s) hflag (by omega), hlen]
    omega

end FeedParser

namespace FeedParser

/-! ## Supporting lemmas: category mapping -/

theorem categoryStep_saturated :
    ∀ (tokens : List String) (acc : List Int × Nat), 8 ≤ acc.2 →
      tokens.foldl categoryStep acc = acc := by
  intro tokens
  induction tokens with
  | nil => intro acc h; rfl
  | cons t rest ih =>
    intro acc h
    rw [List.foldl_cons]
    have hstep : categoryStep acc t = acc := by
      unfold categoryStep
      rw [if_pos h]
    rw [hstep]
    exact ih acc h

theorem build_category_fold :
    ∀ (tokens : List String) (ids : List Int) (seen : Nat), seen ≤ 8 →
      (tokens.foldl categoryStep (ids, seen)).1
        = applyMatches ids seen ((tokens.filterMap resolvedCategoryIdx).take (8 - seen)) := by
  intro tokens
  induction tokens with
  | nil =>
    intro ids seen h
    simp [applyMatches]
  | cons t rest ih =>
    intro ids seen h
    by_cases h8 : seen = 8
    · subst h8
      rw [categoryStep_saturated (t :: rest) (ids, 8) (le_refl 8)]
      simp [applyMatches]
    · have hlt : seen < 8 := lt_of_le_of_ne h h8
      rw [List.foldl_cons]
      cases hr : resolvedCategoryIdx t with
      | none =>
        have hstep : categoryStep (ids, seen) t = (ids, seen) := by
          unfold categoryStep
          rw [if_neg (by omega)]
          unfold resolvedCategoryIdx at hr
          cases hf : CATEGORY_LOOKUP.findIdx? (fun v => v = stripSpacesHyphens t) with
          | none => rfl
          | some j =>
            rw [hf] at hr
            by_cases hj : j > 0
            · simp [hj] at hr
            · simp [hj]
        rw [hstep]
        rw [show (t :: rest).filterMap resolvedCategoryIdx
            = rest.filterMap resolvedCategoryIdx from by
          simp only [List.filterMap_cons, hr]]
        exact ih ids seen h
      | some idx =>
        have hstep : categoryStep (ids, seen) t
            = (ids.set (seen + 1) (idx : Int), seen + 1) := by
          unfold categoryStep
          rw [if_neg (by omega)]
          unfold resolvedCategoryIdx at hr
          cases hf : CATEGORY_LOOKUP.findIdx? (fun v => v = stripSpacesHyphens t) with
          | none =>
            rw [hf] at hr
            exact Option.noConfusion hr
          | some j =>
            rw [hf] at hr
            by_cases hj : j > 0
            · have hji : j = idx := by simpa [hj] using hr
              subst hji
              simp [hj]
            · simp [hj] at hr
        rw [hstep]
        rw [show (t :: rest).filterMap resolvedCategoryIdx
            = idx :: rest.filterMap resolvedCategoryIdx from by
          simp only [List.filterMap_cons, hr]]
        rw [show 8 - seen = (8 - (seen + 1)) + 1 from by omega, List.take_succ_cons]
        rw [show applyMatches ids seen
            (idx :: (((rest.filterMap resolvedCategoryIdx)).take (8 - (seen + 1))))
            = applyMatches (ids.set (seen + 1) (idx : Int)) (seen + 1)
                ((rest.filterMap resolvedCategoryIdx).take (8 - (seen + 1))) from rfl]
        exact ih (ids.set (seen + 1) (idx : Int)) (seen + 1) (by omega)

theorem build_category_ids_spec (raw : List String) :
    build_category_ids raw
      = applyMatches (List.replicate 11 0) 0
          (((categoryTokens raw).filterMap resolvedCategoryIdx).take 8) := by
  unfold build_category_ids
  exact build_category_fold (categoryTokens raw) (List.replicate 11 0) 0 (by omega)

theorem mem_if_append {x : String} {c : Prop} [Decidable c] {l ladd : List String}
    (h : x ∈ l) : x ∈ (if c then l ++ ladd else l) := by
  split
  · exact List.mem_append_left ladd h
  · exact h

theorem contains_if_append {x : String} {c : Prop} [Decidable c] {l ladd : List String}
    (h : l.contains x = true) : (if c then l ++ ladd else l).contains x = true := by
  have hm : x ∈ l := by simpa using h
  have h2 : x ∈ (if c then l ++ ladd else l) := mem_if_append hm
  simpa using h2

end FeedParser

namespace FeedParser

/-! ## Supporting lemmas: the event step -/

theorem run_append (cfg : Cfg) :
    ∀ (es1 es2 : List Ev) (s : ParserState),
      run cfg (es1 ++ es2) s
        = ((run cfg es2 (run cfg es1 s).1).1,
            (run cfg es1 s).2 ++ (run cfg es2 (run cfg es1 s).1).2) := by
  intro es1
  induction es1 with
  | nil => intro es2 s; simp [run]
  | cons e es ih =>
    intro es2 s
    simp only [List.cons_append, run, List.append_eq]
    rw [ih es2 (step cfg e s).1]
    simp [List.append_assoc]

set_option maxHeartbeats 3200000 in
theorem step_in_item_invar (cfg : Cfg) (e : Ev) (s : ParserState)
    (hm : midEvent e = true) : ((step cfg e s).1).in_item = s.in_item := by
  cases e <;> (try (exact absurd hm (by decide))) <;>
    simp only [step, enclosure_on_start, atom_link_on_start, link_on_start, link_on_text,
      title_on_text, itunes_title_on_text, guid_on_text, pub_date_on_text,
      itunes_duration_on_start, itunes_duration_on_text, itunes_episode_on_text,
      itunes_season_on_text, itunes_image_on_start, podcast_funding_on_start,
      podcast_funding_on_text, podcast_funding_on_end, podcast_transcript_on_start,
      podcast_transcript_on_end, podcast_chapters_on_start, podcast_chapters_on_end,
      podcast_soundbite_on_start, podcast_soundbite_on_text, podcast_soundbite_on_end,
      podcast_person_on_start, podcast_person_on_text, podcast_person_on_end,
      podcast_value_on_start, podcast_value_on_value_recipient, podcast_value_on_end,
      category_on_start, category_on_text, category_on_end] <;>
    (repeat' split) <;> rfl

set_option maxHeartbeats 3200000 in
theorem step_flag_mono (cfg : Cfg) (e : Ev) (s : ParserState)
    (hm : midEvent e = true) (h : s.item_has_valid_enclosure = true) :
    ((step cfg e s).1).item_has_valid_enclosure = true := by
  cases e <;> (try (exact absurd hm (by decide))) <;>
    simp only [step, enclosure_on_start, atom_link_on_start, link_on_start, link_on_text,
      title_on_text, itunes_title_on_text, guid_on_text, pub_date_on_text,
      itunes_duration_on_start, itunes_duration_on_text, itunes_episode_on_text,
      itunes_season_on_text, itunes_image_on_start, podcast_funding_on_start,
      podcast_funding_on_text, podcast_funding_on_end, podcast_transcript_on_start,
      podcast_transcript_on_end, podcast_chapters_on_start, podcast_chapters_on_end,
      podcast_soundbite_on_start, podcast_soundbite_on_text, podcast_soundbite_on_end,
      podcast_person_on_start, podcast_person_on_text, podcast_person_on_end,
      podcast_value_on_start, podcast_value_on_value_recipient, podcast_value_on_end,
      category_on_start, category_on_text, category_on_end] <;>
    (repeat' split) <;> first | exact h | rfl

set_option maxHeartbeats 3200000 in
theorem step_silent_of_invalid (cfg : Cfg) (e : Ev) (s : ParserState)
    (hm : midEvent e = true) (h : s.item_has_valid_enclosure = false) :
    (step cfg e s).2 = [] ∧ metricsOf (step cfg e s).1 = metricsOf s := by
  cases e <;> (try (exact absurd hm (by decide))) <;>
    simp only [step, metricsOf, enclosure_on_start, atom_link_on_start, link_on_start,
      link_on_text, title_on_text, itunes_title_on_text, guid_on_text, pub_date_on_text,
      itunes_duration_on_start, itunes_duration_on_text, itunes_episode_on_text,
      itunes_season_on_text, itunes_image_on_start, podcast_funding_on_start,
      podcast_funding_on_text, podcast_funding_on_end, podcast_transcript_on_start,
      podcast_transcript_on_end, podcast_chapters_on_start, podcast_chapters_on_end,
      podcast_soundbite_on_start, podcast_soundbite_on_text, podcast_soundbite_on_end,
      podcast_person_on_start, podcast_person_on_text, podcast_person_on_end,
      podcast_value_on_start, podcast_value_on_value_recipient, podcast_value_on_end,
      category_on_start, category_on_text, category_on_end] <;>
    (repeat' split) <;> simp_all

theorem run_in_item_invar (cfg : Cfg) :
    ∀ (es : List Ev) (s : ParserState), (∀ e ∈ es, midEvent e = true) →
      ((run cfg es s).1).in_item = s.in_item := by
  intro es
  induction es with
  | nil => intro s _; rfl
  | cons e es ih =>
    intro s hm
    simp only [run]
    rw [ih (step cfg e s).1 (fun x hx => hm x (List.mem_cons_of_mem e hx))]
    exact step_in_item_invar cfg e s (hm e (List.mem_cons_self e es))

theorem run_flag_false_backward (cfg : Cfg) :
    ∀ (es : List Ev) (s : ParserState), (∀ e ∈ es, midEvent e = true) →
      ((run cfg es s).1).item_has_valid_enclosure = false →
      s.item_has_valid_enclosure = false := by
  intro es
  induction es with
  | nil => intro s _ h; exact h
  | cons e es ih =>
    intro s hm h
    simp only [run] at h
    have h1 : ((step cfg e s).1).item_has_valid_enclosure = false :=
      ih (step cfg e s).1 (fun x hx => hm x (List.mem_cons_of_mem e hx)) h
    by_cases hs : s.item_has_valid_enclosure = true
    · have := step_flag_mono cfg e s (hm e (List.mem_cons_self e es)) hs
      rw [this] at h1
      exact absurd h1 (by simp)
    · simpa using hs

theorem run_silent_of_invalid (cfg : Cfg) :
    ∀ (es : List Ev) (s : ParserState), (∀ e ∈ es, midEvent e = true) →
      ((run cfg es s).1).item_has_valid_enclosure = false →
      (run cfg es s).2 = [] ∧ metricsOf (run cfg es s).1 = metricsOf s := by
  intro es
  induction es with
  | nil => intro s _ _; exact ⟨rfl, rfl⟩
  | cons e es ih =>
    intro s hm h
    simp only [run] at h ⊢
    have hmid : midEvent e = true := hm e (List.mem_cons_self e es)
    have hrest : ∀ x ∈ es, midEvent x = true :=
      fun x hx => hm x (List.mem_cons_of_mem e hx)
    have h1 : ((step cfg e s).1).item_has_valid_enclosure = false :=
      run_flag_false_backward cfg es (step cfg e s).1 hrest h
    have h0 : s.item_has_valid_enclosure = false := by
      by_cases hs : s.item_has_valid_enclosure = true
      · have := step_flag_mono cfg e s hmid hs
        rw [this] at h1
        exact absurd h1 (by simp)
      · simpa using hs
    have hstep := step_silent_of_invalid cfg e s hmid h0
    have hrun := ih (step cfg e s).1 hrest h
    refine ⟨?_, ?_⟩
    · rw [hstep.1, hrun.1]
      rfl
    · rw [hrun.2, hstep.2]

end FeedParser

namespace FeedParser

/-! ## Supporting lemmas: the running item content hash -/

set_option maxHeartbeats 3200000 in
theorem step_item_hash (cfg : Cfg) (e : Ev) (s : ParserState) :
    ((step cfg e s).1).item_hash = expectedHashAfter e s := by
  cases e
  case itemEnd =>
    by_cases h1 : s.in_item = true
    · by_cases h2 : s.item_has_valid_enclosure = true
      · simp only [step, item_on_end, expectedHashAfter, hashContribution, h1, h2,
          Bool.not_true, Bool.false_eq_true, if_false, Bool.and_self, if_true]
        by_cases h3 : isEmptyS (trimS s.guid) = true <;>
          by_cases h4 : isEmptyS (trimS s.enclosure_type) = true <;>
            cases hp : s.item_value_pending <;>
              simp [h3, h4, hp, hashTitleOf, String.append_assoc]
      · have h2' : s.item_has_valid_enclosure = false := by simpa using h2
        simp [step, item_on_end, expectedHashAfter, hashContribution, h1, h2',
          String.append_empty]
    · have h1' : s.in_item = false := by simpa using h1
      simp [step, item_on_end, expectedHashAfter, hashContribution, h1',
        String.append_empty]
  case transcriptEnd =>
    simp only [step, podcast_transcript_on_end, expectedHashAfter, hashContribution]
    by_cases hf : s.in_podcast_transcript = true <;>
      by_cases hv : s.item_has_valid_enclosure = true <;>
        simp [hf, hv, String.append_assoc, String.append_empty]
  case chaptersEnd =>
    simp only [step, podcast_chapters_on_end, expectedHashAfter, hashContribution]
    by_cases hf : s.in_podcast_chapters = true <;>
      by_cases hv : s.item_has_valid_enclosure = true <;>
        simp [hf, hv, String.append_assoc, String.append_empty]
  case soundbiteEnd =>
    simp only [step, podcast_soundbite_on_end, expectedHashAfter, hashContribution]
    by_cases hf : s.in_podcast_soundbite = true <;>
      by_cases hv : s.item_has_valid_enclosure = true <;>
        simp [hf, hv, String.append_assoc, String.append_empty]
  case personEnd =>
    simp only [step, podcast_person_on_end, expectedHashAfter, hashContribution]
    by_cases hf : s.in_podcast_person = true <;>
      by_cases hv : s.item_has_valid_enclosure = true <;>
        simp [hf, hv, String.append_assoc, String.append_empty]
  all_goals
    simp only [step, expectedHashAfter, hashContribution, String.append_empty,
      channel_on_start, channel_on_end, item_on_start, enclosure_on_start,
      atom_link_on_start, link_on_start, link_on_text, title_on_text,
      itunes_title_on_text, guid_on_text, pub_date_on_text, itunes_duration_on_start,
      itunes_duration_on_text, itunes_episode_on_text, itunes_season_on_text,
      itunes_image_on_start, podcast_funding_on_start, podcast_funding_on_text,
      podcast_funding_on_end, podcast_transcript_on_start, podcast_chapters_on_start,
      podcast_soundbite_on_start, podcast_soundbite_on_text, podcast_person_on_start,
      podcast_person_on_text, podcast_value_on_start, podcast_value_on_value_recipient,
      podcast_value_on_end, category_on_start, category_on_text, category_on_end] <;>
    (repeat' split) <;> rfl

/-- C1: an item scope whose inner events never establish a structurally
valid enclosure emits no record at all — no `nfitems` row and no child
row — and leaves the channel's item count, pubdate list, newest/oldest
pubdates, and running item content-hash stream exactly as they were
before the item started. -/
theorem c1_invalid_item_discarded (cfg : Cfg) (mid : List Ev) (s : ParserState)
    (hmid : ∀ e ∈ mid, midEvent e = true)
    (hinv : ((run cfg mid (item_on_start s)).1).item_has_valid_enclosure = false) :
    (run cfg (Ev.itemStart :: (mid ++ [Ev.itemEnd])) s).2 = [] ∧
    metricsOf ((run cfg (Ev.itemStart :: (mid ++ [Ev.itemEnd])) s).1) = metricsOf s := by
  have hmidrun := run_silent_of_invalid cfg mid (item_on_start s) hmid hinv
  have hitem : ((run cfg mid (item_on_start s)).1).in_item = true := by
    rw [run_in_item_invar cfg mid (item_on_start s) hmid]
    rfl
  have hone : run cfg [Ev.itemEnd] ((run cfg mid (item_on_start s)).1)
      = ({ (run cfg mid (item_on_start s)).1 with
            item_value_pending := none, in_item := false }, []) := by
    simp [run, step, item_on_end, hitem, hinv]
  constructor
  · simp only [run, step, List.nil_append]
    rw [run_append cfg mid [Ev.itemEnd] (item_on_start s), hmidrun.1, hone]
    rfl
  · simp only [run, step]
    rw [run_append cfg mid [Ev.itemEnd] (item_on_start s), hone]
    exact hmidrun.2

/-- Closed instance of C1 on the `c1mid` scenario (ftp enclosure, a
transcript and a soundbite inside the item). -/
theorem c1_invalid_item_discarded_witness :
    ((∀ e ∈ c1mid, midEvent e = true) ∧
      ((run ({} : Cfg) c1mid (item_on_start initState)).1).item_has_valid_enclosure
        = false) ∧
    ((run ({} : Cfg) (Ev.itemStart :: (c1mid ++ [Ev.itemEnd])) initState).2 = [] ∧
      metricsOf ((run ({} : Cfg) (Ev.itemStart :: (c1mid ++ [Ev.itemEnd])) initState).1)
        = metricsOf initState) :=
  ⟨⟨by decide, by decide⟩,
    c1_invalid_item_discarded {} c1mid initState (by decide) (by decide)⟩

/-- C2 (amended): the running item content hash consumes, besides the
six-field tuple at each valid item end, the trimmed child-entity fields
of every transcript, chapters, soundbite and person scope that closes
inside a valid-enclosure item; each event extends the digest stream by
exactly `hashContribution`, and the `newsfeeds` record's
`podcast_chapters` column carries exactly that stream. -/
theorem c2_item_hash_stream :
    (∀ (cfg : Cfg) (e : Ev) (s : ParserState),
      ((step cfg e s).1).item_hash = expectedHashAfter e s) ∧
    (∀ (cfg : Cfg) (s : ParserState),
      recValue (write_newsfeeds cfg s) "podcast_chapters" = some (Json.str s.item_hash)) := by
  refine ⟨step_item_hash, ?_⟩
  intro cfg s
  rfl

/-- Counterexample to C2 as originally stated: a channel with one valid
item carrying a single transcript emits the stream "ttyhttp://a" in the
`podcast_chapters` column — the transcript bytes "t" ++ "ty" precede the
item's six-field tuple "http://a" — so the digest stream is not the
concatenation of the per-item six-field tuples alone. -/
theorem c2_item_hash_counterexample :
    ((run ({} : Cfg) c2evs initState).2.filterMap
        (fun r => if r.table = "newsfeeds" then recValue r "podcast_chapters" else none))
      = [Json.str "ttyhttp://a"] ∧
    hashContribution Ev.itemEnd ((run ({} : Cfg) c2evsBeforeItemEnd initState).1)
      = "http://a" ∧
    ("ttyhttp://a" : String) ≠ "http://a" :=
  ⟨rfl, rfl, by decide⟩

end FeedParser

namespace FeedParser

/-! ## Supporting lemmas: update-frequency windows -/

theorem countFilterWindow (now : Int) (pds : List Int) (d : Int) :
    (pds.filter (fun time => time > now - d * 24 * 60 * 60)).length
      = countWithinDays now pds d := by
  unfold countWithinDays
  congr 1
  apply List.filter_congr
  intro t _
  simp only [decide_eq_decide]
  omega

/-- C3 (amended): per scope the pending block evolves by `value_accept` —
a new non-empty-recipient block replaces the pending one unless a code-0
block has been accepted and the new block's mapped code is not 0 — so the
block emitted at scope end is the LAST code-0-mapped block when one
occurs (unknown type strings also map to code 0) and the last-seen block
otherwise; the fold of that rule selects exactly the last code-0 block or
else the last block. -/
theorem c3_value_block_selection :
    (∀ bs : List (Int × String), select_value_blocks bs
        = match bs.reverse.find? (fun b => b.1 == 0) with
          | some b => some b
          | none => bs.getLast?) ∧
    (∀ s : ParserState, s.in_podcast_value = true → s.value_recipients ≠ [] →
      s.in_item = false → s.in_channel = true →
      ((podcast_value_on_end s).channel_value_pending,
        (podcast_value_on_end s).channel_value_has_lightning)
        = value_accept s.channel_value_pending s.channel_value_has_lightning
            (map_value_type s.value_model_type) ((build_value_block s).getD "")) ∧
    (∀ s : ParserState, s.in_podcast_value = true → s.value_recipients ≠ [] →
      s.in_item = true → s.item_has_valid_enclosure = true →
      ((podcast_value_on_end s).item_value_pending,
        (podcast_value_on_end s).item_value_has_lightning)
        = value_accept s.item_value_pending s.item_value_has_lightning
            (map_value_type s.value_model_type) ((build_value_block s).getD "")) :=
  ⟨select_value_blocks_spec,
   fun s h1 h2 h3 h4 => podcast_value_on_end_channel_accept s h1 h2 h3 h4,
   fun s h1 h2 h3 h4 => podcast_value_on_end_item_accept s h1 h2 h3 h4⟩

/-- Closed instance of C3 (amended): the fold keeps the last code-0 block
of a code-2/code-0/code-1 sequence, and the channel acceptance step on
`c3ChanState` matches `value_accept`. -/
theorem c3_value_block_selection_witness :
    (select_value_blocks [(2, "A"), (0, "B"), (1, "C")] = some (0, "B")) ∧
    (c3ChanState.in_podcast_value = true ∧ c3ChanState.value_recipients ≠ [] ∧
      c3ChanState.in_item = false ∧ c3ChanState.in_channel = true) ∧
    ((podcast_value_on_end c3ChanState).channel_value_pending,
      (podcast_value_on_end c3ChanState).channel_value_has_lightning)
      = value_accept c3ChanState.channel_value_pending
          c3ChanState.channel_value_has_lightning
          (map_value_type c3ChanState.value_model_type)
          ((build_value_block c3ChanState).getD "") :=
  ⟨by
    have h := c3_value_block_selection.1 [(2, "A"), (0, "B"), (1, "C")]
    simpa using h,
   ⟨rfl, List.cons_ne_nil _ _, rfl, rfl⟩,
   c3_value_block_selection.2.1 c3ChanState rfl (List.cons_ne_nil _ _) rfl rfl⟩

/-- Counterexample to C3 as originally stated: in `c3evs` the channel sees
two lightning-typed blocks, Alice's first and Bob's second; the block
emitted at channel end is Bob's — the last lightning block — not the
first one. -/
theorem c3_selection_counterexample :
    ((run ({} : Cfg) c3evs initState).2.filterMap
        (fun r => if r.table = "nfvalue" then recValue r "value_block" else none))
      = [Json.str (canonical_json_string c3BobJson)] ∧
    canonical_json_string c3BobJson ≠ canonical_json_string c3AliceJson :=
  ⟨rfl, by decide⟩

/-- C4: canonical serialization sorts object keys at every nesting level
(arrays keep insertion order), so permuting distinct-keyed object entries
leaves the serialized bytes unchanged; the destinations list is capped at
the first 100 recipients (n in, min n 100 out); a recipient's `fee` key is
present iff the last `fee` attribute maps true under the
true/yes/1 case-insensitive rule, and absent otherwise; and the type code
maps lightning→0, hbd→1, bitcoin→2, default 0. -/
theorem c4_value_block_construction :
    (∀ v : Json, canonical_json_string v = serializeJson (canonicalize_json v) ∧
      sortedKeysAtEveryLevel (canonicalize_json v) = true) ∧
    (∀ (l l' : List (String × Json)), l.Perm l' → (l.map Prod.fst).Nodup →
      canonical_json_string (Json.obj l) = canonical_json_string (Json.obj l')) ∧
    (∀ s : ParserState, ((s.value_recipients.take 100).map destinationJson).length ≤ 100) ∧
    (∀ (n : Nat) (attrs : List (String × String)),
      (((List.replicate n attrs).foldl (fun st a => podcast_value_on_value_recipient a st)
          { initState with in_podcast_value := true }).value_recipients).length
        = min n 100) ∧
    (∀ attrs : List (String × String),
      (recipientFromAttrs attrs).fee
        = match lastFeeSpec attrs with
          | some v => feeAttrTrue v
          | none => false) ∧
    (∀ v : String, feeAttrTrue v
        = (toAsciiLower v == "true" || toAsciiLower v == "yes" || toAsciiLower v == "1")) ∧
    (∀ r : ValueRecipient, (objEntries (destinationJson r)).lookup "fee"
        = if r.fee then some (Json.bool true) else none) ∧
    (map_value_type "lightning" = 0 ∧ map_value_type "hbd" = 1 ∧
      map_value_type "bitcoin" = 2 ∧ map_value_type "hive" = 0 ∧ map_value_type "" = 0) := by
  refine ⟨fun v => ⟨rfl, canonicalize_sorted v⟩,
    canonical_json_string_obj_perm, ?_, ?_, ?_, fun v => rfl,
    destinationJson_fee_lookup, by decide, by decide, by decide, by decide, by decide⟩
  · intro s
    simp only [List.length_map, List.length_take]
    omega
  · intro n attrs
    have h := foldl_recipients_length attrs n
      { initState with in_podcast_value := true } rfl (by decide)
    rw [show ({ initState with in_podcast_value := true } : ParserState).value_recipients.length
        = 0 from rfl] at h
    simpa using h
  · intro attrs
    have h := foldl_recipientAttrStep_fee attrs {}
    cases hl : lastFeeSpec attrs with
    | some v =>
      rw [hl] at h
      simpa [recipientFromAttrs] using h
    | none =>
      rw [hl] at h
      simpa [recipientFromAttrs] using h

/-- Closed instance of C4's permutation conjunct: swapping two
distinct-keyed entries leaves the canonical serialization unchanged. -/
theorem c4_value_block_construction_witness :
    ([("b", Json.int 1), ("a", Json.int 2)].Perm [("a", Json.int 2), ("b", Json.int 1)] ∧
      ([("b", Json.int 1), ("a", Json.int 2)].map Prod.fst).Nodup) ∧
    canonical_json_string (Json.obj [("b", Json.int 1), ("a", Json.int 2)])
      = canonical_json_string (Json.obj [("a", Json.int 2), ("b", Json.int 1)]) :=
  ⟨⟨List.Perm.swap _ _ _, by decide⟩,
    c4_value_block_construction.2.1 _ _ (List.Perm.swap _ _ _) (by decide)⟩

/-- C5 (amended): a whole-seconds integer duration resolves to that
integer clamped into the i32-safe range; otherwise the text is split on
colons — two fields resolve as mm:ss and three as hh:mm:ss, each field
parsed with fallback 0 and every arithmetic step performed in wrapping
two's-complement i32 arithmetic (exact whenever the value stays in the
i32 range) — and any other shape resolves to the whole-text parse with
fallback 1800 (the 30-minute default), so "83" → 83, "01:02" → 62,
garbage → 1800, and the overflowing "35791395:00" → -2147483596. -/
theorem c5_duration_parsing :
    (∀ (raw : String) (n : Int), parse_i32 raw = some n →
      parse_itunes_duration raw = truncate_int n) ∧
    (∀ raw : String, parse_i32 raw = none →
      parse_itunes_duration raw = time_to_seconds raw) ∧
    (∀ raw : String, (splitOnCharS raw ':').length = 2 →
      time_to_seconds raw
        = wrap32 (wrap32 (((parse_i32 ((splitOnCharS raw ':').getD 0 "")).getD 0) * 60)
            + ((parse_i32 ((splitOnCharS raw ':').getD 1 "")).getD 0))) ∧
    (∀ raw : String, (splitOnCharS raw ':').length = 3 →
      time_to_seconds raw
        = wrap32 (wrap32
            (wrap32 (((parse_i32 ((splitOnCharS raw ':').getD 0 "")).getD 0) * 3600)
              + wrap32 (((parse_i32 ((splitOnCharS raw ':').getD 1 "")).getD 0) * 60))
            + ((parse_i32 ((splitOnCharS raw ':').getD 2 "")).getD 0))) ∧
    (∀ raw : String, (splitOnCharS raw ':').length ≠ 2 →
      (splitOnCharS raw ':').length ≠ 3 →
      time_to_seconds raw = (parse_i32 raw).getD 1800) ∧
    (∀ n : Int, -2147483648 ≤ n → n ≤ 2147483647 → wrap32 n = n) ∧
    (parse_itunes_duration "83" = 83 ∧ parse_itunes_duration "01:02" = 62 ∧
      parse_itunes_duration "garbage" = 1800 ∧ parse_itunes_duration "1:2:3:4" = 1800 ∧
      parse_itunes_duration "35791395:00" = -2147483596) := by
  refine ⟨?_, ?_, ?_, ?_, ?_, ?_, by decide, by decide, by decide, by decide, by decide⟩
  · intro raw n h
    simp [parse_itunes_duration, h]
  · intro raw h
    simp [parse_itunes_duration, h]
  · intro raw hlen
    simp only [time_to_seconds]
    rw [hlen]
  · intro raw hlen
    simp only [time_to_seconds]
    rw [hlen]
  · intro raw h2 h3
    simp only [time_to_seconds]
    rcases hlen : (splitOnCharS raw ':').length with _ | _ | _ | _ | n
    · rfl
    · rfl
    · exact absurd hlen h2
    · exact absurd hlen h3
    · rfl
  · intro n h1 h2
    unfold wrap32
    omega

/-- Closed instance of C5 on the spec's own examples: "83" parses whole,
"01:02" splits into two fields (with every step inside the i32 range),
"garbage" falls to the default branch. -/
theorem c5_duration_parsing_witness :
    (parse_i32 "83" = some 83 ∧ parse_itunes_duration "83" = truncate_int 83) ∧
    ((splitOnCharS "01:02" ':').length = 2 ∧
      time_to_seconds "01:02"
        = wrap32 (wrap32 (((parse_i32 ((splitOnCharS "01:02" ':').getD 0 "")).getD 0) * 60)
            + ((parse_i32 ((splitOnCharS "01:02" ':').getD 1 "")).getD 0))) ∧
    ((splitOnCharS "garbage" ':').length ≠ 2 ∧ (splitOnCharS "garbage" ':').length ≠ 3 ∧
      time_to_seconds "garbage" = (parse_i32 "garbage").getD 1800) ∧
    ((-2147483648 : Int) ≤ 62 ∧ (62 : Int) ≤ 2147483647 ∧ wrap32 62 = 62) :=
  ⟨⟨by decide, c5_duration_parsing.1 "83" 83 (by decide)⟩,
   ⟨by decide, c5_duration_parsing.2.2.1 "01:02" (by decide)⟩,
   ⟨by decide, by decide, c5_duration_parsing.2.2.2.2.1 "garbage" (by decide) (by decide)⟩,
   ⟨by decide, by decide, c5_duration_parsing.2.2.2.2.2.1 62 (by decide) (by decide)⟩⟩

/-- Counterexample to C5 as originally stated: garbage duration text
resolves to 1800 (the engine's 30-minute default), not to 0. -/
theorem c5_duration_counterexample :
    parse_itunes_duration "garbage" = 1800 ∧ (1800 : Int) ≠ 0 := by decide

/-- C6: the update-frequency classification equals the spec's nested
window rule — 9/8/7 when no item falls within 400/200/100 days, else the
tightest of the 5/10/20/40/100/200-day windows holding more than one
item (classes 1..6), else 7 when at least one item is within 400 days,
else 0 — and in particular an empty pubdate list classifies as 9 and two
items one day apart classify as 1. -/
theorem c6_update_frequency :
    (∀ (now : Int) (pds : List Int),
      calculate_update_frequency now pds = update_frequency_spec now pds) ∧
    (∀ now : Int, calculate_update_frequency now [] = 9) ∧
    calculate_update_frequency 1000000000 [1000000000, 999913600] = 1 := by
  refine ⟨?_, fun now => rfl, by decide⟩
  intro now pds
  unfold calculate_update_frequency update_frequency_spec
  simp only [countFilterWindow now pds 400, countFilterWindow now pds 200,
    countFilterWindow now pds 100, countFilterWindow now pds 40,
    countFilterWindow now pds 20, countFilterWindow now pds 10,
    countFilterWindow now pds 5]

end FeedParser

namespace FeedParser

/-! ## Supporting lemmas: the `nfitems` record columns -/

theorem write_nfitems_col_enclosure_type (cfg : Cfg) (s : ParserState) :
    recValue (write_nfitems cfg s) "enclosure_type"
      = some (Json.str (trimS s.enclosure_type)) := rfl

theorem write_nfitems_col_enclosure_length (cfg : Cfg) (s : ParserState) :
    recValue (write_nfitems cfg s) "enclosure_length"
      = some (jsonOfOptInt (parse_i64 (trimS s.enclosure_length))) := rfl

theorem write_nfitems_col_itunes_episode (cfg : Cfg) (s : ParserState) :
    recValue (write_nfitems cfg s) "itunes_episode"
      = some (jsonOfOptInt (parse_i32 (trimS s.itunes_episode))) := rfl

theorem write_nfitems_col_itunes_season (cfg : Cfg) (s : ParserState) :
    recValue (write_nfitems cfg s) "itunes_season"
      = some (jsonOfOptInt (parse_i32 (trimS s.itunes_season))) := rfl

set_option maxHeartbeats 3200000 in
theorem resolveItemForOutput_enclosure_type (s : ParserState) :
    (resolveItemForOutput s).enclosure_type
      = if isEmptyS (trimS s.enclosure_type) then guess_enclosure_type s.enclosure_url
        else s.enclosure_type := by
  unfold resolveItemForOutput
  by_cases hg : isEmptyS (trimS s.guid) = true <;>
    by_cases ht : isEmptyS (trimS s.enclosure_type) = true <;>
      simp [hg, ht]

theorem contains_self_if_append (l : List String) (a b c : String)
    (ha : l.contains a = true) (hb : l.contains b = true) :
    (if l.contains a && l.contains b then l ++ [c] else l).contains c = true := by
  rw [ha, hb]
  simp

set_option maxHeartbeats 3200000 in
theorem item_on_end_head (cfg : Cfg) (s : ParserState)
    (h1 : s.in_item = true) (h2 : s.item_has_valid_enclosure = true) :
    ((item_on_end cfg s).2).head? = some (write_nfitems cfg (resolveItemForOutput s)) := by
  simp only [item_on_end, resolveItemForOutput, h1, h2, Bool.not_true, Bool.false_eq_true,
    if_false]
  split <;> split <;> (try split) <;> rfl

/-- C7 (amended): at a valid item end the emitted `nfitems` record is
written from the state with the guid and enclosure-type fallbacks
applied; when the explicit type is blank the emitted type is
`guess_enclosure_type` of the URL, otherwise the explicit type wins; the
guess is substring-based with table .m4v/.mp4→video/mp4, .avi→video/avi,
.mov→video/quicktime, .mp3→audio/mpeg, .m4a→audio/mp4, .wav→audio/wav,
.ogg→audio/ogg, .wmv→video/x-ms-wmv and default "" (so .oga, .webm,
.flac and unknown suffixes guess the empty string). -/
theorem c7_enclosure_type_resolution :
    (∀ (cfg : Cfg) (s : ParserState), s.in_item = true → s.item_has_valid_enclosure = true →
      ((item_on_end cfg s).2).head? = some (write_nfitems cfg (resolveItemForOutput s))) ∧
    (∀ (cfg : Cfg) (s : ParserState), isEmptyS (trimS s.enclosure_type) = true →
      recValue (write_nfitems cfg (resolveItemForOutput s)) "enclosure_type"
        = some (Json.str (trimS (guess_enclosure_type s.enclosure_url)))) ∧
    (∀ (cfg : Cfg) (s : ParserState), isEmptyS (trimS s.enclosure_type) = false →
      recValue (write_nfitems cfg (resolveItemForOutput s)) "enclosure_type"
        = some (Json.str (trimS s.enclosure_type))) ∧
    (guess_enclosure_type "a.m4v" = "video/mp4" ∧ guess_enclosure_type "a.mp4" = "video/mp4" ∧
      guess_enclosure_type "a.avi" = "video/avi" ∧
      guess_enclosure_type "a.mov" = "video/quicktime" ∧
      guess_enclosure_type "a.mp3" = "audio/mpeg" ∧ guess_enclosure_type "a.m4a" = "audio/mp4" ∧
      guess_enclosure_type "a.wav" = "audio/wav" ∧ guess_enclosure_type "a.ogg" = "audio/ogg" ∧
      guess_enclosure_type "a.wmv" = "video/x-ms-wmv") ∧
    (guess_enclosure_type "a.oga" = "" ∧ guess_enclosure_type "a.webm" = "" ∧
      guess_enclosure_type "a.flac" = "" ∧ guess_enclosure_type "a.mpeg" = "" ∧
      guess_enclosure_type "a.bin" = "") := by
  refine ⟨item_on_end_head, ?_, ?_, by decide, by decide⟩
  · intro cfg s h
    rw [write_nfitems_col_enclosure_type, resolveItemForOutput_enclosure_type, if_pos h]
  · intro cfg s h
    rw [write_nfitems_col_enclosure_type, resolveItemForOutput_enclosure_type,
      if_neg (by simp [h])]

/-- Closed instance of C7 on `c7state` (blank explicit type, `.mp4` URL)
and on `c8state` (explicit type audio/mpeg). -/
theorem c7_enclosure_type_resolution_witness :
    (c7state.in_item = true ∧ c7state.item_has_valid_enclosure = true ∧
      ((item_on_end ({} : Cfg) c7state).2).head?
        = some (write_nfitems {} (resolveItemForOutput c7state))) ∧
    (isEmptyS (trimS c7state.enclosure_type) = true ∧
      recValue (write_nfitems ({} : Cfg) (resolveItemForOutput c7state)) "enclosure_type"
        = some (Json.str (trimS (guess_enclosure_type c7state.enclosure_url)))) ∧
    (isEmptyS (trimS c8state.enclosure_type) = false ∧
      recValue (write_nfitems ({} : Cfg) (resolveItemForOutput c8state)) "enclosure_type"
        = some (Json.str (trimS c8state.enclosure_type))) :=
  ⟨⟨rfl, rfl, c7_enclosure_type_resolution.1 {} c7state rfl rfl⟩,
   ⟨rfl, c7_enclosure_type_resolution.2.1 {} c7state rfl⟩,
   ⟨rfl, c7_enclosure_type_resolution.2.2.1 {} c8state rfl⟩⟩

/-- Counterexample to C7 as originally stated: an item whose enclosure
URL ends in `.mp4` with a blank explicit type emits enclosure type
"video/mp4", not the claimed audio/mp4; and a `.flac` URL guesses "",
not the claimed audio/flac (nor the claimed default audio/mpeg). -/
theorem c7_guess_counterexample :
    ((item_on_end ({} : Cfg) c7state).2.head?.map (fun r => recValue r "enclosure_type"))
      = some (some (Json.str "video/mp4")) ∧
    guess_enclosure_type "a.flac" = "" ∧
    ("video/mp4" : String) ≠ "audio/mp4" ∧ ("" : String) ≠ "audio/flac" :=
  ⟨rfl, rfl, by decide, by decide⟩

/-- C8: in every emitted `nfitems` record the episode and season columns
are null when the trimmed text fails i32 parsing, and — contrary to the
spec's enclosure-length exception and the repository's own clamp test —
the enclosure length column is likewise null when i64 parsing fails (no
0 default, no clamping): the out-of-range test length
"9999999999999999999" yields null, not 0. -/
theorem c8_numeric_field_nulls :
    (∀ (cfg : Cfg) (s : ParserState), parse_i32 (trimS s.itunes_episode) = none →
      recValue (write_nfitems cfg s) "itunes_episode" = some Json.null) ∧
    (∀ (cfg : Cfg) (s : ParserState), parse_i32 (trimS s.itunes_season) = none →
      recValue (write_nfitems cfg s) "itunes_season" = some Json.null) ∧
    (∀ (cfg : Cfg) (s : ParserState) (n : Int), parse_i64 (trimS s.enclosure_length) = some n →
      recValue (write_nfitems cfg s) "enclosure_length" = some (Json.int n)) ∧
    (∀ (cfg : Cfg) (s : ParserState), parse_i64 (trimS s.enclosure_length) = none →
      recValue (write_nfitems cfg s) "enclosure_length" = some Json.null) ∧
    (parse_i64 (trimS c8state.enclosure_length) = none ∧
      recValue (write_nfitems ({} : Cfg) c8state) "enclosure_length" = some Json.null ∧
      Json.null ≠ Json.int 0 ∧
      recValue (write_nfitems ({} : Cfg) c8state) "itunes_episode" = some Json.null ∧
      recValue (write_nfitems ({} : Cfg) c8state) "itunes_season" = some (Json.int 7)) := by
  refine ⟨?_, ?_, ?_, ?_, by decide, rfl, ?_, rfl, rfl⟩
  · intro cfg s h
    rw [write_nfitems_col_itunes_episode, h]
    rfl
  · intro cfg s h
    rw [write_nfitems_col_itunes_season, h]
    rfl
  · intro cfg s n h
    rw [write_nfitems_col_enclosure_length, h]
    rfl
  · intro cfg s h
    rw [write_nfitems_col_enclosure_length, h]
    rfl
  · intro h
    exact Json.noConfusion h

/-- Closed instance of C8 applied at the clamp-test state `c8state`. -/
theorem c8_numeric_field_nulls_witness :
    parse_i32 (trimS c8state.itunes_episode) = none ∧
    recValue (write_nfitems ({} : Cfg) c8state) "itunes_episode" = some Json.null :=
  ⟨by decide, c8_numeric_field_nulls.1 {} c8state (by decide)⟩

/-- C9: the channel's raw category tokens are trimmed, lowercased and
emptiness-filtered; compound tokens (videogames, truecrime, aftershows,
selfimprovement, howto) are synthesized whenever both halves occur
anywhere in the normalized list; the output vector takes at most the
first 8 resolved taxonomy matches in order (unknown tokens consume no
slot); the raw list is adjacent-deduplicated before lookup; and the
`nfcategories` record is suppressed exactly when every slot is zero (or
the raw list is empty). -/
theorem c9_category_mapping :
    (∀ raw : List String, build_category_ids raw
        = applyMatches (List.replicate 11 0) 0
            (((categoryTokens raw).filterMap resolvedCategoryIdx).take 8)) ∧
    (∀ raw : List String, (normalizedCategoryTokens raw).contains "video" = true →
      (normalizedCategoryTokens raw).contains "games" = true →
      (categoryTokens raw).contains "videogames" = true) ∧
    (∀ raw : List String, (normalizedCategoryTokens raw).contains "true" = true →
      (normalizedCategoryTokens raw).contains "crime" = true →
      (categoryTokens raw).contains "truecrime" = true) ∧
    (∀ (cfg : Cfg) (s : ParserState), s.channel_categories_raw ≠ [] →
      (write_nfcategories cfg s = none ↔
        ((build_category_ids (dedupAdjacent s.channel_categories_raw)).drop 1).all
          (fun v => v = 0) = true)) ∧
    (∀ (cfg : Cfg) (s : ParserState), s.channel_categories_raw = [] →
      write_nfcategories cfg s = none) ∧
    (dedupAdjacent ["news", "news", "tech"] = ["news", "tech"] ∧
      build_category_ids ["Video", " Games ", "mystery"]
        = [0, 48, 52, 0, 0, 0, 0, 0, 0, 0, 0]) := by
  refine ⟨build_category_ids_spec, ?_, ?_, ?_, ?_, by decide, by decide⟩
  · intro raw hv hg
    unfold normalizedCategoryTokens at hv hg
    unfold categoryTokens
    apply contains_if_append
    apply contains_if_append
    apply contains_if_append
    apply contains_if_append
    exact contains_self_if_append _ _ _ _ hv hg
  · intro raw hv hg
    unfold normalizedCategoryTokens at hv hg
    unfold categoryTokens
    apply contains_if_append
    apply contains_if_append
    apply contains_if_append
    exact contains_self_if_append _ _ _ _ (contains_if_append hv) (contains_if_append hg)
  · intro cfg s h
    have hne : s.channel_categories_raw.isEmpty = false := by
      cases hv : s.channel_categories_raw with
      | nil => exact absurd hv h
      | cons a l => rfl
    simp only [write_nfcategories, hne, Bool.false_eq_true, if_false]
    split
    next hall => exact iff_of_true rfl hall
    next hall =>
      exact ⟨fun hcontra => Option.noConfusion hcontra, fun htrue => absurd htrue hall⟩
  · intro cfg s h
    simp [write_nfcategories, h]

/-- Closed instance of C9: compound synthesis and suppression applied at
concrete inputs. -/
theorem c9_category_mapping_witness :
    ((normalizedCategoryTokens ["Video", " Games "]).contains "video" = true ∧
      (normalizedCategoryTokens ["Video", " Games "]).contains "games" = true ∧
      (categoryTokens ["Video", " Games "]).contains "videogames" = true) ∧
    (write_nfcategories {} { initState with channel_categories_raw := ["mystery"] } = none ↔
      ((build_category_ids (dedupAdjacent ["mystery"])).drop 1).all
        (fun v => v = 0) = true) :=
  ⟨⟨by decide, by decide,
    c9_category_mapping.2.1 ["Video", " Games "] (by decide) (by decide)⟩,
   c9_category_mapping.2.2.2.1 {} { initState with channel_categories_raw := ["mystery"] }
     (List.cons_ne_nil _ _)⟩

/-- C10: contrary to the claim (and the repository's own
alternate-enclosure test, which expects the primary duration 83), content
nested inside `podcast:alternateEnclosure` leaks into the primary item:
the duration and transcript handlers carry no alternate-enclosure guard,
so on the test's event stream the emitted duration is the alternate's
3269 and both transcript URLs are emitted, while the chapters handler
does honor the flag and only the primary chapters URL is emitted. -/
theorem c10_alternate_enclosure_leak :
    ((run ({} : Cfg) c10evs initState).2.filterMap
        (fun r => if r.table = "nfitems" then recValue r "itunes_duration" else none))
      = [Json.int 3269] ∧
    Json.int 3269 ≠ Json.int 83 ∧
    ((run ({} : Cfg) c10evs initState).2.filterMap
        (fun r => if r.table = "nfitem_transcripts" then recValue r "url" else none))
      = [Json.str "https://example.com/main.srt", Json.str "https://example.com/paid.srt"] ∧
    ((run ({} : Cfg) c10evs initState).2.filterMap
        (fun r => if r.table = "nfitem_chapters" then recValue r "url" else none))
      = [Json.str "https://example.com/main.json"] ∧
    (∀ (url ty : String) (s : ParserState), s.in_item = true →
      s.in_podcast_alternate_enclosure = true →
      (podcast_transcript_on_start url ty s).current_transcript_url = url) ∧
    (∀ (url ty : String) (s : ParserState), s.in_podcast_alternate_enclosure = true →
      podcast_chapters_on_start url ty s = s) := by
  refine ⟨rfl, ?_, rfl, rfl, ?_, ?_⟩
  · intro h
    injection h with h2
    exact absurd h2 (by decide)
  · intro url ty s h1 _h2
    simp [podcast_transcript_on_start, h1]
  · intro url ty s h
    simp [podcast_chapters_on_start, h]

/-- Closed instance of C10's handler conjuncts inside an
alternate-enclosure scope. -/
theorem c10_alternate_enclosure_leak_witness :
    (podcast_transcript_on_start "u" "ty"
        { initState with in_item := true, in_podcast_alternate_enclosure := true }
      ).current_transcript_url = "u" ∧
    podcast_chapters_on_start "u" "ty"
        { initState with in_item := true, in_podcast_alternate_enclosure := true }
      = { initState with in_item := true, in_podcast_alternate_enclosure := true } :=
  ⟨c10_alternate_enclosure_leak.2.2.2.2.1 "u" "ty" _ rfl rfl,
   c10_alternate_enclosure_leak.2.2.2.2.2 "u" "ty" _ rfl⟩

end FeedParser
